import Mathlib

/-!
# MSA::SMTP — the mail-submission session controller of `src/MSA/SMTP.cpp`

A shallow embedding of the `SMTP` class: its member variables become the fields of a
structure, every member function becomes a function from the object before the call to
the object after it together with the ordered list of effects the call performed
(signals emitted, operations invoked on the `QwwSmtpClient`).

Conventions of the embedding

* `QString` is `String`, `QByteArray` is a list of bytes.
* `tr` is the identity: no translation catalogue is installed.
* `QString::arg` is used by the source only on templates holding the single place
  marker `%1`; it replaces every occurrence of that marker by the argument.
* `QwwSmtpClient` is an external collaborator.  Calls into it are recorded as effects;
  what it reports back (`done`, `socketError`, `sslErrors`, `connected`, the log signals,
  and the value of `errorString()` read inside `handleDone`) is input of the model.
* `UiUtils::Formatting::sslErrorsToHtml` is not part of `SMTP.cpp`; it is a parameter.
-/

namespace MSA

abbrev QString := String
abbrev QByteArray := List UInt8

/-- The bytes of an ASCII literal, as a C string literal gives them to `QByteArray`. -/
def bytes (s : String) : QByteArray := s.toList.map (fun c => c.toNat.toUInt8)

/-- The test `QString::isEmpty`. -/
def QString.isEmpty (s : QString) : Bool := s.data.isEmpty

/-- Replacement of every occurrence of `before` by `after`, scanning left to right over
the original sequence, occurrences not overlapping and replaced text not rescanned: the
behaviour of `QByteArray::replace(before, after)` and of `QString::replace` for a
non-empty `before`.  The counter is the number of elements of a matched occurrence still
to be skipped. -/
def replaceFrom {α : Type} [DecidableEq α] (before after : List α) : Nat → List α → List α
  | _, [] => []
  | skip + 1, _ :: cs => replaceFrom before after skip cs
  | 0, c :: cs =>
    if before.isPrefixOf (c :: cs) then after ++ replaceFrom before after (before.length - 1) cs
    else c :: replaceFrom before after 0 cs

/-- The call `data.replace(before, after)` on a `QByteArray`. -/
def QByteArray.replace (data before after : QByteArray) : QByteArray :=
  replaceFrom before after 0 data

/-- The call `data.startsWith(c)` on a `QByteArray`. -/
def QByteArray.startsWith (data : QByteArray) (c : UInt8) : Bool :=
  match data with
  | [] => false
  | b :: _ => b == c

/-- The call `data.prepend(c)` on a `QByteArray`. -/
def QByteArray.prepend (data : QByteArray) (c : UInt8) : QByteArray := c :: data

/-- The function `tr`: without a translation catalogue the source text itself. -/
def tr (s : String) : QString := s

/-- The call `tmpl.arg(a)` for a template whose only place marker is `%1`. -/
def QString.arg (tmpl a : QString) : QString :=
  String.mk (replaceFrom "%1".toList a.toList 0 tmpl.toList)

/-- The enumeration of sending modes (declared in `SMTP.h`). -/
inductive SendingMode where
  | MODE_SMTP_INVALID
  | MODE_SMTP_DATA
  | MODE_SMTP_BURL
  deriving DecidableEq, Repr

/-- The authentication policy `QwwSmtpClient::AuthMode`; the source only uses `AuthAny`. -/
inductive AuthMode where
  | AuthAny
  deriving DecidableEq, Repr

/-- The two log directions of `Common::LogKind` that the source uses. -/
inductive LogKind where
  | LOG_IO_READ
  | LOG_IO_WRITTEN
  deriving DecidableEq, Repr

/-- A value of `QAbstractSocket::SocketError`, by its enumeration number. -/
abbrev SocketError := Int

/-- The value `QAbstractSocket::ConnectionRefusedError`. -/
def ConnectionRefusedError : SocketError := 0

/-- A `QSslError`: the number of the error and the certificate it is about. -/
structure QSslError where
  error : Nat
  certificate : QByteArray
  deriving DecidableEq, Repr

/-- The signals of `AbstractMSA` that `SMTP` emits. -/
inductive Signal where
  | connecting
  | passwordRequested (user host : QString)
  | sending
  | sent
  | error (message : QString)
  | progressMax (max : Nat)
  | progress (num : Nat)
  | logged (kind : LogKind) (source : QString) (message : QByteArray)
  deriving DecidableEq, Repr

/-- The operations of `QwwSmtpClient` that `SMTP` invokes. -/
inductive SmtpOp where
  | connectToHost (host : QString) (port : Nat)
  | connectToHostEncrypted (host : QString) (port : Nat)
  | TLS
  | authenticate (user pass : QString) (mode : AuthMode)
  | sendMail (from_ : QByteArray) (to_ : List QByteArray) (data : QByteArray)
  | sendMailBurl (from_ : QByteArray) (to_ : List QByteArray) (url : QByteArray)
  | disconnectFromHost
  deriving DecidableEq, Repr

/-- One observable effect of a member function: a signal emitted or a client operation. -/
inductive Effect where
  | emit (sig : Signal)
  | call (op : SmtpOp)
  deriving DecidableEq, Repr

/-- The member variables of `SMTP`.  The fields `from_` and `to_` are the members `from`
and `to`; the member tested at line 119 under the spelling `Tls` is the flag `TLS` that
the constructor stores. -/
structure SMTP where
  host : QString
  port : Nat
  encryptedConnect : Bool
  TLS : Bool
  auth : Bool
  user : QString
  pass : QString
  from_ : QByteArray
  to_ : List QByteArray
  data : QByteArray
  failed : Bool
  isWaitingForPassword : Bool
  sendingMode : SendingMode
  deriving DecidableEq, Repr

/-- The constructor `SMTP::SMTP`: the configuration is stored, `failed` and
`isWaitingForPassword` are false, the mode is `MODE_SMTP_INVALID`, every other member
is default-constructed (empty). -/
def SMTP.new (host : QString) (port : Nat) (encryptedConnect TLS auth : Bool)
    (user : QString) : SMTP :=
  { host := host, port := port, encryptedConnect := encryptedConnect, TLS := TLS,
    auth := auth, user := user, pass := "", from_ := [], to_ := [], data := [],
    failed := false, isWaitingForPassword := false,
    sendingMode := SendingMode.MODE_SMTP_INVALID }

/-- The member function `SMTP::cancel`. -/
def SMTP.cancel (s : SMTP) : SMTP × List Effect :=
  let out := [Effect.call SmtpOp.disconnectFromHost]
  if !s.failed then
    ({ s with failed := true },
      out ++ [Effect.emit (Signal.error (tr "Sending of the message was cancelled"))])
  else
    (s, out)

/-- The member function `SMTP::handleDone`; `errorString` is what
`qwwSmtp->errorString()` returns during the call. -/
def SMTP.handleDone (s : SMTP) (ok : Bool) (errorString : QString) : SMTP × List Effect :=
  if s.failed then
    (s, [])
  else if ok then
    (s, [Effect.emit Signal.sent])
  else
    let s1 := { s with failed := true }
    if QString.isEmpty errorString then
      (s1, [Effect.emit (Signal.error (tr "Sending of the message failed."))])
    else
      (s1, [Effect.emit (Signal.error
        (QString.arg (tr "Sending of the message failed with the following error: %1")
          errorString))])

/-- The member function `SMTP::handleError`. -/
def SMTP.handleError (s : SMTP) (_err : SocketError) (msg : QString) : SMTP × List Effect :=
  ({ s with failed := true }, [Effect.emit (Signal.error msg)])

/-- The member function `SMTP::handleSslErrors`, over the formatter
`UiUtils::Formatting::sslErrorsToHtml`. -/
def SMTP.handleSslErrors (sslErrorsToHtml : List QSslError → QString) (s : SMTP)
    (errors : List QSslError) : SMTP × List Effect :=
  let msg := sslErrorsToHtml errors
  (s, [Effect.emit (Signal.error
    (QString.arg (tr "<p>Cannot send message due to an SSL/TLS error</p>\n%1") msg))])

/-- The member function `SMTP::sendContinueGotPassword`. -/
def SMTP.sendContinueGotPassword (s : SMTP) : SMTP × List Effect :=
  let s := { s with isWaitingForPassword := false }
  let out : List Effect :=
    if s.encryptedConnect then [Effect.call (SmtpOp.connectToHostEncrypted s.host s.port)]
    else [Effect.call (SmtpOp.connectToHost s.host s.port)]
  let out := if s.TLS then out ++ [Effect.call SmtpOp.TLS] else out
  let out :=
    if s.auth then out ++ [Effect.call (SmtpOp.authenticate s.user s.pass AuthMode.AuthAny)]
    else out
  let out := out ++ [Effect.emit Signal.sending]
  let r : SMTP × List Effect :=
    match s.sendingMode with
    | SendingMode.MODE_SMTP_DATA =>
      let data := if QByteArray.startsWith s.data 46 then QByteArray.prepend s.data 46 else s.data
      let data := QByteArray.replace data (bytes "\n.") (bytes "\n..")
      let s := { s with data := data }
      (s, out ++ [Effect.call (SmtpOp.sendMail s.from_ s.to_ s.data)])
    | SendingMode.MODE_SMTP_BURL =>
      (s, out ++ [Effect.call (SmtpOp.sendMailBurl s.from_ s.to_ s.data)])
    | SendingMode.MODE_SMTP_INVALID =>
      ({ s with failed := true }, out ++ [Effect.emit (Signal.error (tr "Unknown SMTP mode"))])
  (r.1, r.2 ++ [Effect.call SmtpOp.disconnectFromHost])

/-- The member function `SMTP::setPassword`. -/
def SMTP.setPassword (s : SMTP) (password : QString) : SMTP × List Effect :=
  let s := { s with pass := password }
  if s.isWaitingForPassword then s.sendContinueGotPassword else (s, [])

/-- The member function `SMTP::sendMail`. -/
def SMTP.sendMail (s : SMTP) (from_ : QByteArray) (to_ : List QByteArray) (data : QByteArray) :
    SMTP × List Effect :=
  let s := { s with from_ := from_, to_ := to_, data := data,
                    sendingMode := SendingMode.MODE_SMTP_DATA, isWaitingForPassword := true }
  let out := [Effect.emit (Signal.progressMax data.length), Effect.emit (Signal.progress 0),
    Effect.emit Signal.connecting]
  if !s.auth || !QString.isEmpty s.pass then
    let r := s.sendContinueGotPassword
    (r.1, out ++ r.2)
  else
    (s, out ++ [Effect.emit (Signal.passwordRequested s.user s.host)])

/-- The member function `SMTP::supportsBurl`. -/
def SMTP.supportsBurl (_s : SMTP) : Bool := true

/-- The member function `SMTP::sendBurl`. -/
def SMTP.sendBurl (s : SMTP) (from_ : QByteArray) (to_ : List QByteArray) (imapUrl : QByteArray) :
    SMTP × List Effect :=
  let s := { s with from_ := from_, to_ := to_, data := imapUrl,
                    sendingMode := SendingMode.MODE_SMTP_BURL, isWaitingForPassword := true }
  let out := [Effect.emit (Signal.progressMax 1), Effect.emit (Signal.progress 0),
    Effect.emit Signal.connecting]
  if !s.auth || !QString.isEmpty s.pass then
    let r := s.sendContinueGotPassword
    (r.1, out ++ r.2)
  else
    (s, out ++ [Effect.emit (Signal.passwordRequested s.user s.host)])

/-- The slot connected to `connected`: the signal is forwarded to `sending`.  (The log
signals below are forwarded to `logged`, whose text is `QString::fromUtf8` of the bytes
carried here.) -/
def SMTP.onConnected (s : SMTP) : SMTP × List Effect :=
  (s, [Effect.emit Signal.sending])

/-- The slot connected to `logReceived`. -/
def SMTP.onLogReceived (s : SMTP) (data : QByteArray) : SMTP × List Effect :=
  (s, [Effect.emit (Signal.logged LogKind.LOG_IO_READ "SMTP" data)])

/-- The slot connected to `logSent`. -/
def SMTP.onLogSent (s : SMTP) (data : QByteArray) : SMTP × List Effect :=
  (s, [Effect.emit (Signal.logged LogKind.LOG_IO_WRITTEN "SMTP" data)])

/-- Everything that can happen to an `SMTP` object after construction: a call of a
public member function by the owner, or a signal of the `QwwSmtpClient` delivered to the
slot connected to it. -/
inductive Call where
  | sendMail (from_ : QByteArray) (to_ : List QByteArray) (data : QByteArray)
  | sendBurl (from_ : QByteArray) (to_ : List QByteArray) (imapUrl : QByteArray)
  | setPassword (password : QString)
  | cancel
  | handleDone (ok : Bool) (errorString : QString)
  | handleError (err : SocketError) (msg : QString)
  | handleSslErrors (errors : List QSslError)
  | connected
  | logReceived (data : QByteArray)
  | logSent (data : QByteArray)
  deriving DecidableEq, Repr

/-- One call or callback applied to the object. -/
def SMTP.step (fmt : List QSslError → QString) (s : SMTP) : Call → SMTP × List Effect
  | Call.sendMail f t d => s.sendMail f t d
  | Call.sendBurl f t u => s.sendBurl f t u
  | Call.setPassword p => s.setPassword p
  | Call.cancel => s.cancel
  | Call.handleDone ok e => s.handleDone ok e
  | Call.handleError err msg => s.handleError err msg
  | Call.handleSslErrors errors => s.handleSslErrors fmt errors
  | Call.connected => s.onConnected
  | Call.logReceived d => s.onLogReceived d
  | Call.logSent d => s.onLogSent d

/-- A finite sequence of calls and callbacks applied in order; the effects are those of
the single steps, concatenated. -/
def SMTP.run (fmt : List QSslError → QString) (s : SMTP) : List Call → SMTP × List Effect
  | [] => (s, [])
  | c :: cs =>
    let r := s.step fmt c
    let r2 := SMTP.run fmt r.1 cs
    (r2.1, r.2 ++ r2.2)

/-- The signals among a list of effects, in order. -/
def signals : List Effect → List Signal
  | [] => []
  | Effect.emit sig :: es => sig :: signals es
  | Effect.call _ :: es => signals es

/-- The client operations among a list of effects, in order. -/
def ops : List Effect → List SmtpOp
  | [] => []
  | Effect.emit _ :: es => ops es
  | Effect.call op :: es => op :: ops es

/-- A terminal report: `sent` or `error`. -/
def Signal.isTerminal : Signal → Bool
  | Signal.sent => true
  | Signal.error _ => true
  | _ => false

/-- An `error` report. -/
def Signal.isError : Signal → Bool
  | Signal.error _ => true
  | _ => false

/-- The terminal reports among a list of effects, in order. -/
def terminals (es : List Effect) : List Signal := (signals es).filter Signal.isTerminal

/-- A submit operation: `sendMail` or `sendMailBurl`. -/
def SmtpOp.isSubmit : SmtpOp → Bool
  | SmtpOp.sendMail _ _ _ => true
  | SmtpOp.sendMailBurl _ _ _ => true
  | _ => false

/-- A connect operation, plain or encrypted. -/
def SmtpOp.isConnect : SmtpOp → Bool
  | SmtpOp.connectToHost _ _ => true
  | SmtpOp.connectToHostEncrypted _ _ => true
  | _ => false

/-- The dot-stuffing that `sendContinueGotPassword` applies to `data` in DATA mode
(lines 128 to 130). -/
def dotStuff (data : QByteArray) : QByteArray :=
  QByteArray.replace
    (if QByteArray.startsWith data 46 then QByteArray.prepend data 46 else data)
    (bytes "\n.") (bytes "\n..")

/-- The lines of a byte string: the pieces between the line feeds (one more piece than
there are line feeds). -/
def splitLines (d : QByteArray) : List QByteArray := d.splitOn 10

/-- The pieces joined again with one line feed between neighbours. -/
def joinLines (ls : List QByteArray) : QByteArray := [10].intercalate ls

/-- Reference dot-stuffing of one line: a line whose first byte is `.` gets one more `.`
in front, any other line is left as it is. -/
def stuffLine : QByteArray → QByteArray
  | [] => []
  | b :: bs => if b = 46 then 46 :: b :: bs else b :: bs

/-- Reference dot-stuffing, following the words of the specification: split on line
feeds, stuff every line, join with line feeds. -/
def refDotStuff (d : QByteArray) : QByteArray := joinLines ((splitLines d).map stuffLine)

/-- A formatter of SSL errors used in the examples: the number of errors, in words of
one letter each. -/
def fmtCount : List QSslError → QString := fun errors => String.mk (errors.map (fun _ => 'E'))

/-- The callbacks that report an error whatever the state of the object: `handleError`
and `handleSslErrors`. -/
def Call.isErrorCallback : Call → Bool
  | Call.handleError _ _ => true
  | Call.handleSslErrors _ => true
  | _ => false

/-- The calls that start a submission: `sendMail` and `sendBurl`. -/
def Call.isSend : Call → Bool
  | Call.sendMail _ _ _ => true
  | Call.sendBurl _ _ _ => true
  | _ => false

/-- The call `setPassword`. -/
def Call.isSetPassword : Call → Bool
  | Call.setPassword _ => true
  | _ => false

/-- A `passwordRequested` signal. -/
def Signal.isPasswordRequested : Signal → Bool
  | Signal.passwordRequested _ _ => true
  | _ => false

/-- The submit operations among a list of effects, in order. -/
def submits (es : List Effect) : List SmtpOp := (ops es).filter SmtpOp.isSubmit

/-- The negation of the test at lines 105 and 160: auth is required and no password is stored. -/
def SMTP.needsPassword (s : SMTP) : Bool := s.auth && QString.isEmpty s.pass

/-- The connect operation of lines 115 to 118. -/
def SMTP.connectOp (s : SMTP) : SmtpOp :=
  if s.encryptedConnect then SmtpOp.connectToHostEncrypted s.host s.port
  else SmtpOp.connectToHost s.host s.port

/-- The `passwordRequested` signals among a list of effects. -/
def passwordRequests (es : List Effect) : List Signal :=
  (signals es).filter Signal.isPasswordRequested

/-- The object waits for the password with the request of `sendMail(f, t, d)` stored. -/
def SMTP.Pending (f : QByteArray) (t : List QByteArray) (d : QByteArray) (s : SMTP) : Prop :=
  s.isWaitingForPassword = true ∧ s.sendingMode = SendingMode.MODE_SMTP_DATA ∧
    s.from_ = f ∧ s.to_ = t ∧ s.data = d

/-- A `handleError` callback whose message is the given text. -/
def Call.isHandleErrorWith (text : QString) : Call → Bool
  | Call.handleError _ msg => msg == text
  | _ => false

/-- The text of the error of the default branch of the switch on the mode. -/
def unknownModeText : QString := tr "Unknown SMTP mode"

/-- The object waits for the password with the request of `sendBurl(f, t, u)` stored. -/
def SMTP.PendingBurl (f : QByteArray) (t : List QByteArray) (u : QByteArray) (s : SMTP) : Prop :=
  s.isWaitingForPassword = true ∧ s.sendingMode = SendingMode.MODE_SMTP_BURL ∧
    s.from_ = f ∧ s.to_ = t ∧ s.data = u

/-- The connect operations among a list of effects, in order. -/
def connects (es : List Effect) : List SmtpOp := (ops es).filter SmtpOp.isConnect

/-- The mode is a valid one whenever the object waits for a password. -/
def SMTP.ModeSet (s : SMTP) : Prop :=
  s.isWaitingForPassword = true → s.sendingMode ≠ SendingMode.MODE_SMTP_INVALID

/-- The error that a callback reports whatever the state of the object: `handleError`
reports its message (line 79), `handleSslErrors` the formatted list (line 85); no other
call or callback reports unconditionally. -/
def Call.errorReport (fmt : List QSslError → QString) : Call → Option Signal
  | Call.handleError _ msg => some (Signal.error msg)
  | Call.handleSslErrors errors =>
    some (Signal.error
      (QString.arg (tr "<p>Cannot send message due to an SSL/TLS error</p>\n%1") (fmt errors)))
  | _ => none

/-- The callback `handleSslErrors`. -/
def Call.isSslCallback : Call → Bool
  | Call.handleSslErrors _ => true
  | _ => false

/-- The `error` reports among a list of effects, in order. -/
def errorReports (es : List Effect) : List Signal := (signals es).filter Signal.isError

/-- The room left for an error report of `cancel` or `handleDone`: one while the latch is
open, none once it is set. -/
def SMTP.room (s : SMTP) : Nat := if s.failed then 0 else 1

/-- The number of `handleError` callbacks in a sequence that carry the given text. -/
def handleErrorsWith (text : QString) (trace : List Call) : Nat :=
  (trace.filter (Call.isHandleErrorWith text)).length

/-! ## Lemmas on effect lists -/

theorem signals_append (xs ys : List Effect) : signals (xs ++ ys) = signals xs ++ signals ys := by
  induction xs with
  | nil => rfl
  | cons x xs ih => cases x <;> simp [signals, ih]

theorem ops_append (xs ys : List Effect) : ops (xs ++ ys) = ops xs ++ ops ys := by
  induction xs with
  | nil => rfl
  | cons x xs ih => cases x <;> simp [ops, ih]

theorem terminals_append (xs ys : List Effect) :
    terminals (xs ++ ys) = terminals xs ++ terminals ys := by
  simp [terminals, signals_append]

theorem run_append (fmt : List QSslError → QString) (s : SMTP) (xs ys : List Call) :
    SMTP.run fmt s (xs ++ ys) =
      ((SMTP.run fmt (SMTP.run fmt s xs).1 ys).1,
        (SMTP.run fmt s xs).2 ++ (SMTP.run fmt (SMTP.run fmt s xs).1 ys).2) := by
  induction xs generalizing s with
  | nil => simp [SMTP.run]
  | cons x xs ih => simp [SMTP.run, ih]

/-! ## The continuation `sendContinueGotPassword` and the latch `failed` -/

theorem sendContinue_waiting (s : SMTP) :
    s.sendContinueGotPassword.1.isWaitingForPassword = false := by
  unfold SMTP.sendContinueGotPassword
  cases h : s.sendingMode <;> simp [h]

theorem sendContinue_mode (s : SMTP) :
    s.sendContinueGotPassword.1.sendingMode = s.sendingMode := by
  unfold SMTP.sendContinueGotPassword
  cases h : s.sendingMode <;> simp [h]

theorem sendContinue_failed (s : SMTP) (h : s.sendingMode ≠ SendingMode.MODE_SMTP_INVALID) :
    s.sendContinueGotPassword.1.failed = s.failed := by
  unfold SMTP.sendContinueGotPassword
  cases h' : s.sendingMode <;> simp_all

theorem sendContinue_terminals (s : SMTP) (h : s.sendingMode ≠ SendingMode.MODE_SMTP_INVALID) :
    terminals s.sendContinueGotPassword.2 = [] := by
  unfold SMTP.sendContinueGotPassword
  cases h' : s.sendingMode <;> cases h1 : s.encryptedConnect <;> cases h2 : s.TLS <;>
    cases h3 : s.auth <;> simp_all [terminals, signals, Signal.isTerminal]

theorem setPassword_modeSet (s : SMTP) (p : QString) :
    (s.setPassword p).1.ModeSet := by
  unfold SMTP.setPassword SMTP.ModeSet
  cases hw : s.isWaitingForPassword <;> simp [hw, sendContinue_waiting]

theorem step_modeSet (fmt : List QSslError → QString) (s : SMTP) (c : Call) (hI : s.ModeSet) :
    (s.step fmt c).1.ModeSet := by
  cases c with
  | sendMail f t d =>
    intro _
    simp only [SMTP.step, SMTP.sendMail]
    split <;> simp [sendContinue_mode]
  | sendBurl f t d =>
    intro _
    simp only [SMTP.step, SMTP.sendBurl]
    split <;> simp [sendContinue_mode]
  | setPassword p => exact setPassword_modeSet s p
  | cancel =>
    unfold SMTP.ModeSet at *
    simp only [SMTP.step, SMTP.cancel]
    split <;> simpa using hI
  | handleDone ok e =>
    unfold SMTP.ModeSet at *
    simp only [SMTP.step, SMTP.handleDone]
    split
    · simpa using hI
    · split
      · simpa using hI
      · split <;> simpa using hI
  | handleError err msg => simpa [SMTP.ModeSet, SMTP.step, SMTP.handleError] using hI
  | handleSslErrors errors => simpa [SMTP.ModeSet, SMTP.step, SMTP.handleSslErrors] using hI
  | connected => simpa [SMTP.ModeSet, SMTP.step, SMTP.onConnected] using hI
  | logReceived d => simpa [SMTP.ModeSet, SMTP.step, SMTP.onLogReceived] using hI
  | logSent d => simpa [SMTP.ModeSet, SMTP.step, SMTP.onLogSent] using hI

theorem new_modeSet (host : QString) (port : Nat) (e t a : Bool) (user : QString) :
    (SMTP.new host port e t a user).ModeSet := by
  simp [SMTP.ModeSet, SMTP.new]

theorem sendContinue_signals (s : SMTP) (h : s.sendingMode ≠ SendingMode.MODE_SMTP_INVALID) :
    signals s.sendContinueGotPassword.2 = [Signal.sending] := by
  unfold SMTP.sendContinueGotPassword
  cases h' : s.sendingMode <;> cases h1 : s.encryptedConnect <;> cases h2 : s.TLS <;>
    cases h3 : s.auth <;> simp_all [signals]

theorem run_modeSet (fmt : List QSslError → QString) (trace : List Call) :
    ∀ s : SMTP, s.ModeSet → (SMTP.run fmt s trace).1.ModeSet := by
  induction trace with
  | nil => intro s h; exact h
  | cons c cs ih => intro s h; exact ih _ (step_modeSet fmt s c h)

/-! ## C1: terminal reports -/

theorem errorReports_append (xs ys : List Effect) :
    errorReports (xs ++ ys) = errorReports xs ++ errorReports ys := by
  simp [errorReports, signals_append]

theorem sendContinue_errorReports (s : SMTP) (h : s.sendingMode ≠ SendingMode.MODE_SMTP_INVALID) :
    errorReports s.sendContinueGotPassword.2 = [] := by
  simp [errorReports, sendContinue_signals s h, Signal.isError]

/-- A step on an object whose latch is set: the latch stays set, and the only terminal
report is the one of an unconditional error callback. -/
theorem step_latched (fmt : List QSslError → QString) (s : SMTP) (c : Call) (hI : s.ModeSet)
    (hf : s.failed = true) :
    (s.step fmt c).1.failed = true ∧
      terminals (s.step fmt c).2 = (c.errorReport fmt).toList := by
  cases c with
  | sendMail f t d =>
    simp only [SMTP.step, SMTP.sendMail]
    split
    · refine ⟨?_, ?_⟩
      · rw [sendContinue_failed]
        · exact hf
        · simp
      · rw [terminals_append, sendContinue_terminals]
        · simp [terminals, signals, Signal.isTerminal, Call.errorReport]
        · simp
    · exact ⟨hf, by simp [terminals, signals, Signal.isTerminal, Call.errorReport]⟩
  | sendBurl f t d =>
    simp only [SMTP.step, SMTP.sendBurl]
    split
    · refine ⟨?_, ?_⟩
      · rw [sendContinue_failed]
        · exact hf
        · simp
      · rw [terminals_append, sendContinue_terminals]
        · simp [terminals, signals, Signal.isTerminal, Call.errorReport]
        · simp
    · exact ⟨hf, by simp [terminals, signals, Signal.isTerminal, Call.errorReport]⟩
  | setPassword p =>
    simp only [SMTP.step, SMTP.setPassword]
    split
    · rename_i hw
      refine ⟨?_, ?_⟩
      · rw [sendContinue_failed]
        · exact hf
        · simpa using hI hw
      · rw [sendContinue_terminals]
        · simp [Call.errorReport]
        · simpa using hI hw
    · exact ⟨hf, by simp [terminals, signals, Call.errorReport]⟩
  | cancel => simp [SMTP.step, SMTP.cancel, hf, terminals, signals, Call.errorReport]
  | handleDone ok e => simp [SMTP.step, SMTP.handleDone, hf, terminals, signals, Call.errorReport]
  | handleError err msg =>
    simp [SMTP.step, SMTP.handleError, terminals, signals, Signal.isTerminal, Call.errorReport]
  | handleSslErrors errors =>
    simp [SMTP.step, SMTP.handleSslErrors, hf, terminals, signals, Signal.isTerminal,
      Call.errorReport]
  | connected =>
    simp [SMTP.step, SMTP.onConnected, hf, terminals, signals, Signal.isTerminal,
      Call.errorReport]
  | logReceived d =>
    simp [SMTP.step, SMTP.onLogReceived, hf, terminals, signals, Signal.isTerminal,
      Call.errorReport]
  | logSent d =>
    simp [SMTP.step, SMTP.onLogSent, hf, terminals, signals, Signal.isTerminal,
      Call.errorReport]

theorem filterMap_cons_toList {α β : Type} (f : α → Option β) (a : α) (l : List α) :
    List.filterMap f (a :: l) = (f a).toList ++ List.filterMap f l := by
  cases h : f a <;> simp [List.filterMap_cons, h]

theorem run_latched (fmt : List QSslError → QString) (trace : List Call) :
    ∀ s : SMTP, s.ModeSet → s.failed = true →
      (SMTP.run fmt s trace).1.failed = true ∧
        terminals (SMTP.run fmt s trace).2 = trace.filterMap (Call.errorReport fmt) := by
  induction trace with
  | nil => intro s _ hf; exact ⟨hf, rfl⟩
  | cons c cs ih =>
    intro s hI hf
    have h1 := step_latched fmt s c hI hf
    have h2 := ih _ (step_modeSet fmt s c hI) h1.1
    refine ⟨h2.1, ?_⟩
    simp only [SMTP.run, terminals_append, h1.2, h2.2, filterMap_cons_toList]

/-- The latch is set by a step exactly when it was set before or the step, not being
`handleSslErrors`, reports an error. -/
theorem step_latch_iff (fmt : List QSslError → QString) (s : SMTP) (c : Call) (hI : s.ModeSet) :
    (s.step fmt c).1.failed = true ↔
      s.failed = true ∨ (c.isSslCallback = false ∧ errorReports (s.step fmt c).2 ≠ []) := by
  cases c with
  | sendMail f t d =>
    simp only [SMTP.step, SMTP.sendMail]
    split
    · rw [sendContinue_failed _ (by simp), errorReports_append,
        sendContinue_errorReports _ (by simp)]
      simp [errorReports, signals, Signal.isError]
    · simp [errorReports, signals, Signal.isError]
  | sendBurl f t d =>
    simp only [SMTP.step, SMTP.sendBurl]
    split
    · rw [sendContinue_failed _ (by simp), errorReports_append,
        sendContinue_errorReports _ (by simp)]
      simp [errorReports, signals, Signal.isError]
    · simp [errorReports, signals, Signal.isError]
  | setPassword p =>
    simp only [SMTP.step, SMTP.setPassword]
    split
    · rename_i hw
      rw [sendContinue_failed _ (by simpa using hI hw),
        sendContinue_errorReports _ (by simpa using hI hw)]
      simp
    · simp [errorReports, signals]
  | cancel =>
    cases hf : s.failed <;>
      simp [SMTP.step, SMTP.cancel, hf, errorReports, signals, Signal.isError, Call.isSslCallback]
  | handleDone ok e =>
    cases hf : s.failed <;> cases ok <;> cases he : QString.isEmpty e <;>
      simp [SMTP.step, SMTP.handleDone, hf, he, errorReports, signals, Signal.isError,
        Call.isSslCallback]
  | handleError err msg =>
    simp [SMTP.step, SMTP.handleError, errorReports, signals, Signal.isError, Call.isSslCallback]
  | handleSslErrors errors =>
    simp [SMTP.step, SMTP.handleSslErrors, Call.isSslCallback]
  | connected => simp [SMTP.step, SMTP.onConnected, errorReports, signals, Signal.isError]
  | logReceived d => simp [SMTP.step, SMTP.onLogReceived, errorReports, signals, Signal.isError]
  | logSent d => simp [SMTP.step, SMTP.onLogSent, errorReports, signals, Signal.isError]

theorem step_error_budget (fmt : List QSslError → QString) (s : SMTP) (c : Call)
    (hI : s.ModeSet) :
    (errorReports (s.step fmt c).2).length + (s.step fmt c).1.room
      ≤ s.room + (if c.isErrorCallback then 1 else 0) := by
  cases c with
  | sendMail f t d =>
    simp only [SMTP.step, SMTP.sendMail]
    split
    · simp only [SMTP.room]
      rw [sendContinue_failed _ (by simp), errorReports_append,
        sendContinue_errorReports _ (by simp)]
      simp [errorReports, signals, Signal.isError, Call.isErrorCallback]
    · simp [SMTP.room, errorReports, signals, Signal.isError, Call.isErrorCallback]
  | sendBurl f t d =>
    simp only [SMTP.step, SMTP.sendBurl]
    split
    · simp only [SMTP.room]
      rw [sendContinue_failed _ (by simp), errorReports_append,
        sendContinue_errorReports _ (by simp)]
      simp [errorReports, signals, Signal.isError, Call.isErrorCallback]
    · simp [SMTP.room, errorReports, signals, Signal.isError, Call.isErrorCallback]
  | setPassword p =>
    simp only [SMTP.step, SMTP.setPassword]
    split
    · rename_i hw
      simp only [SMTP.room]
      rw [sendContinue_failed _ (by simpa using hI hw),
        sendContinue_errorReports _ (by simpa using hI hw)]
      simp [Call.isErrorCallback]
    · simp [SMTP.room, errorReports, signals, Call.isErrorCallback]
  | cancel =>
    cases hf : s.failed <;>
      simp [SMTP.step, SMTP.cancel, SMTP.room, hf, errorReports, signals, Signal.isError,
        Call.isErrorCallback]
  | handleDone ok e =>
    cases hf : s.failed <;> cases ok <;> cases he : QString.isEmpty e <;>
      simp [SMTP.step, SMTP.handleDone, SMTP.room, hf, he, errorReports, signals,
        Signal.isError, Call.isErrorCallback]
  | handleError err msg =>
    cases hf : s.failed <;>
      simp [SMTP.step, SMTP.handleError, SMTP.room, hf, errorReports, signals, Signal.isError,
        Call.isErrorCallback]
  | handleSslErrors errors =>
    cases hf : s.failed <;>
      simp [SMTP.step, SMTP.handleSslErrors, SMTP.room, hf, errorReports, signals,
        Signal.isError, Call.isErrorCallback]
  | connected =>
    simp [SMTP.step, SMTP.onConnected, SMTP.room, errorReports, signals, Signal.isError,
      Call.isErrorCallback]
  | logReceived d =>
    simp [SMTP.step, SMTP.onLogReceived, SMTP.room, errorReports, signals, Signal.isError,
      Call.isErrorCallback]
  | logSent d =>
    simp [SMTP.step, SMTP.onLogSent, SMTP.room, errorReports, signals, Signal.isError,
      Call.isErrorCallback]

theorem run_error_budget (fmt : List QSslError → QString) (trace : List Call) :
    ∀ s : SMTP, s.ModeSet →
      (errorReports (SMTP.run fmt s trace).2).length + (SMTP.run fmt s trace).1.room
        ≤ s.room + (trace.filter Call.isErrorCallback).length := by
  induction trace with
  | nil => intro s _; simp [SMTP.run, errorReports, signals]
  | cons c cs ih =>
    intro s hI
    have h1 := step_error_budget fmt s c hI
    have h2 := ih _ (step_modeSet fmt s c hI)
    simp only [SMTP.run, errorReports_append, List.length_append, List.filter_cons]
    split
    · rename_i hc
      simp only [hc, if_true] at h1
      simp only [List.length_cons]
      omega
    · rename_i hc
      simp only [hc] at h1
      simp at h1
      omega


/-- C1, refuted as stated, at three sequences on a fresh controller: after the error of
`handleDone(false)` a `handleError` callback reports a second error; so does a
`handleSslErrors` callback; and after the `sent` of `handleDone(true)` a
`handleDone(false)` still reports an error. -/
theorem C1_counterexample :
    terminals (SMTP.run fmtCount (SMTP.new "smtp.example.org" 587 false true false "user")
      [Call.sendMail (bytes "a@b") [bytes "c@d"] (bytes "Hi"), Call.handleDone false "",
        Call.handleError ConnectionRefusedError "connection refused"]).2
      = [Signal.error "Sending of the message failed.", Signal.error "connection refused"] ∧
    terminals (SMTP.run fmtCount (SMTP.new "smtp.example.org" 587 false true false "user")
      [Call.sendMail (bytes "a@b") [bytes "c@d"] (bytes "Hi"), Call.handleDone false "",
        Call.handleSslErrors [QSslError.mk 10 []]]).2
      = [Signal.error "Sending of the message failed.",
          Signal.error "<p>Cannot send message due to an SSL/TLS error</p>\nE"] ∧
    terminals (SMTP.run fmtCount (SMTP.new "smtp.example.org" 587 false true false "user")
      [Call.sendMail (bytes "a@b") [bytes "c@d"] (bytes "Hi"), Call.handleDone true "",
        Call.handleDone false ""]).2
      = [Signal.sent, Signal.error "Sending of the message failed."] := by
  decide

/-- C1, amended: for every configuration and every finite sequence of calls and callbacks
applied to a freshly constructed controller, `handleError` and `handleSslErrors` included:
a step sets the latch `failed` exactly when the latch was set before or the step, not
being `handleSslErrors`, reports an error; once the latch is set it stays set, the
terminal reports of the rest of the sequence are exactly the errors of its `handleError`
and `handleSslErrors` callbacks, one for each and in their order, and `handleDone` does
nothing at all; and the number of error reports over the whole sequence is at most one
plus the number of `handleError` and `handleSslErrors` callbacks in it. -/
theorem C1_terminal_reports (fmt : List QSslError → QString) (host : QString) (port : Nat)
    (encryptedConnect TLS auth : Bool) (user : QString) (pre : List Call) (c : Call)
    (post : List Call) :
    (((SMTP.run fmt (SMTP.new host port encryptedConnect TLS auth user) pre).1.step fmt c).1.failed
        = true ↔
      (SMTP.run fmt (SMTP.new host port encryptedConnect TLS auth user) pre).1.failed = true ∨
        (c.isSslCallback = false ∧
          errorReports
            ((SMTP.run fmt (SMTP.new host port encryptedConnect TLS auth user) pre).1.step fmt c).2
            ≠ [])) ∧
    ((SMTP.run fmt (SMTP.new host port encryptedConnect TLS auth user) pre).1.failed = true →
      terminals (SMTP.run fmt (SMTP.new host port encryptedConnect TLS auth user) (pre ++ post)).2
        = terminals (SMTP.run fmt (SMTP.new host port encryptedConnect TLS auth user) pre).2
          ++ post.filterMap (Call.errorReport fmt) ∧
      (SMTP.run fmt (SMTP.new host port encryptedConnect TLS auth user) (pre ++ post)).1.failed
        = true ∧
      ∀ ok e,
        (SMTP.run fmt (SMTP.new host port encryptedConnect TLS auth user) (pre ++ post)).1.handleDone
            ok e
          = ((SMTP.run fmt (SMTP.new host port encryptedConnect TLS auth user) (pre ++ post)).1,
              [])) ∧
    (errorReports
        (SMTP.run fmt (SMTP.new host port encryptedConnect TLS auth user) (pre ++ post)).2).length
      ≤ 1 + ((pre ++ post).filter Call.isErrorCallback).length := by
  have h0 := new_modeSet host port encryptedConnect TLS auth user
  have hpre := run_modeSet fmt pre _ h0
  refine ⟨step_latch_iff fmt _ c hpre, fun hf => ?_, ?_⟩
  · have hl := run_latched fmt post _ hpre hf
    rw [run_append]
    refine ⟨by simp only [terminals_append, hl.2], hl.1, fun ok e => ?_⟩
    simp [SMTP.handleDone, hl.1]
  · have := run_error_budget fmt (pre ++ post) _ h0
    have hroom : (SMTP.new host port encryptedConnect TLS auth user).room = 1 := rfl
    rw [hroom] at this
    omega

/-- C1, amended, at a sequence in which a socket error sets the latch and is followed by
a failure and a success notification, a cancellation, an SSL error and another socket
error: only the two error callbacks report. -/
theorem C1_terminal_reports_witness :
    terminals (SMTP.run fmtCount (SMTP.new "smtp.example.org" 587 false true false "user")
      ([Call.sendMail (bytes "a@b") [bytes "c@d"] (bytes "Hi"),
          Call.handleError ConnectionRefusedError "connection refused"] ++
        [Call.handleDone false "", Call.handleDone true "", Call.cancel,
          Call.handleSslErrors [QSslError.mk 10 []], Call.handleError 1 "closed"])).2
      = terminals (SMTP.run fmtCount (SMTP.new "smtp.example.org" 587 false true false "user")
          [Call.sendMail (bytes "a@b") [bytes "c@d"] (bytes "Hi"),
            Call.handleError ConnectionRefusedError "connection refused"]).2
        ++ [Call.handleDone false "", Call.handleDone true "", Call.cancel,
            Call.handleSslErrors [QSslError.mk 10 []],
            Call.handleError 1 "closed"].filterMap (Call.errorReport fmtCount) :=
  ((C1_terminal_reports fmtCount "smtp.example.org" 587 false true false "user"
    [Call.sendMail (bytes "a@b") [bytes "c@d"] (bytes "Hi"),
      Call.handleError ConnectionRefusedError "connection refused"] Call.cancel
    [Call.handleDone false "", Call.handleDone true "", Call.cancel,
      Call.handleSslErrors [QSslError.mk 10 []], Call.handleError 1 "closed"]).2.1
    (by decide)).1

/-! ## C2: cancel while waiting for the password -/

/-- C2, the code at the failing input: with auth required and no stored password,
`sendMail` leaves the controller waiting, `cancel` requests the disconnect and reports
the cancellation once, and yet a following `setPassword(p)` connects, authenticates with
`p`, submits the message and disconnects, because `cancel` leaves
`isWaitingForPassword` set. -/
theorem C2_setPassword_after_cancel (host : QString) (port : Nat) (encryptedConnect TLS : Bool)
    (user : QString) (from_ : QByteArray) (to_ : List QByteArray) (data : QByteArray)
    (p : QString) :
    ((SMTP.new host port encryptedConnect TLS true user).sendMail from_ to_ data).1.isWaitingForPassword
      = true ∧
    ((SMTP.new host port encryptedConnect TLS true user).sendMail from_ to_ data).1.cancel.2
      = [Effect.call SmtpOp.disconnectFromHost,
          Effect.emit (Signal.error "Sending of the message was cancelled")] ∧
    ops (((SMTP.new host port encryptedConnect TLS true user).sendMail from_ to_ data).1.cancel.1.setPassword p).2
      = (if encryptedConnect then [SmtpOp.connectToHostEncrypted host port]
          else [SmtpOp.connectToHost host port])
        ++ (if TLS then [SmtpOp.TLS] else [])
        ++ [SmtpOp.authenticate user p AuthMode.AuthAny,
            SmtpOp.sendMail from_ to_ (dotStuff data), SmtpOp.disconnectFromHost] := by
  cases encryptedConnect <;> cases TLS <;>
    simp [SMTP.new, SMTP.sendMail, SMTP.cancel, SMTP.setPassword, SMTP.sendContinueGotPassword,
      QString.isEmpty, tr, ops, dotStuff]

/-! ## Dot-stuffing -/

theorem bytes_nl_dot : bytes "\n." = [10, 46] := by decide
theorem bytes_nl_dot_dot : bytes "\n.." = [10, 46, 46] := by decide

/-- One step of the replacement of `"\n."` by `"\n.."`. -/
theorem replace_cons (c : UInt8) (cs : QByteArray) :
    replaceFrom [10, 46] [10, 46, 46] 0 (c :: cs) =
      c :: (if c = 10 ∧ QByteArray.startsWith cs 46 = true
              then 46 :: replaceFrom [10, 46] [10, 46, 46] 0 cs
              else replaceFrom [10, 46] [10, 46, 46] 0 cs) := by
  cases cs with
  | nil => simp [replaceFrom, QByteArray.startsWith, List.isPrefixOf]
  | cons b bs =>
    by_cases hc : c = 10
    · by_cases hb : b = 46
      · subst hc; subst hb
        simp [replaceFrom, QByteArray.startsWith, List.isPrefixOf]
      · subst hc
        have : ¬ (46 : UInt8) = b := fun h => hb h.symm
        simp [replaceFrom, QByteArray.startsWith, List.isPrefixOf, hb, this]
    · have : ¬ (10 : UInt8) = c := fun h => hc h.symm
      simp [replaceFrom, QByteArray.startsWith, List.isPrefixOf, hc, this]

theorem joinLines_cons_head (b : UInt8) (l : QByteArray) (ls : List QByteArray) :
    joinLines ((b :: l) :: ls) = b :: joinLines (l :: ls) := by
  cases ls <;> simp [joinLines, List.intercalate]

theorem joinLines_nil_cons (l : QByteArray) (ls : List QByteArray) :
    joinLines ([] :: l :: ls) = 10 :: joinLines (l :: ls) := by
  simp [joinLines, List.intercalate]

theorem splitLines_nil : splitLines [] = [[]] := by
  simp [splitLines]

theorem splitLines_ne_nil (d : QByteArray) : splitLines d ≠ [] := by
  simp [splitLines, List.splitOn, List.splitOnP_ne_nil]

theorem splitLines_cons (b : UInt8) (bs : QByteArray) :
    splitLines (b :: bs) =
      if b = 10 then [] :: splitLines bs else (splitLines bs).modifyHead (List.cons b) := by
  simp [splitLines, List.splitOn, List.splitOnP_cons]

/-- The first line starts with a dot exactly when the whole byte string does. -/
theorem startsWith_head_line (d l : QByteArray) (ls : List QByteArray)
    (h : splitLines d = l :: ls) :
    QByteArray.startsWith l 46 = QByteArray.startsWith d 46 := by
  cases d with
  | nil =>
    rw [splitLines_nil] at h
    cases h; rfl
  | cons b bs =>
    rw [splitLines_cons] at h
    by_cases hb : b = 10
    · subst hb
      simp at h
      rw [h.1]
      simp [QByteArray.startsWith]
    · simp only [hb, if_false] at h
      cases hs : splitLines bs with
      | nil => exact absurd hs (splitLines_ne_nil bs)
      | cons x xs =>
        rw [hs] at h
        simp at h
        rw [← h.1]
        simp [QByteArray.startsWith]

theorem stuffLine_eq (l : QByteArray) :
    stuffLine l = if QByteArray.startsWith l 46 = true then 46 :: l else l := by
  cases l with
  | nil => simp [stuffLine, QByteArray.startsWith]
  | cons b bs => simp [stuffLine, QByteArray.startsWith]

/-- The reference dot-stuffing, in terms of the replacement. -/
theorem refDotStuff_eq (d : QByteArray) :
    refDotStuff d =
      if QByteArray.startsWith d 46 = true then 46 :: replaceFrom [10, 46] [10, 46, 46] 0 d
      else replaceFrom [10, 46] [10, 46, 46] 0 d := by
  induction d with
  | nil =>
    simp [refDotStuff, splitLines_nil, stuffLine, joinLines, QByteArray.startsWith, replaceFrom,
      List.intercalate]
  | cons b bs ih =>
    cases hs : splitLines bs with
    | nil => exact absurd hs (splitLines_ne_nil bs)
    | cons l ls =>
      have hhead := startsWith_head_line bs l ls hs
      have ih' : joinLines (stuffLine l :: ls.map stuffLine) =
          if QByteArray.startsWith bs 46 = true then 46 :: replaceFrom [10, 46] [10, 46, 46] 0 bs
          else replaceFrom [10, 46] [10, 46, 46] 0 bs := by
        simpa [refDotStuff, hs] using ih
      -- the lines after the first, stuffed, behind the unstuffed first line
      have hrest : joinLines (l :: ls.map stuffLine) = replaceFrom [10, 46] [10, 46, 46] 0 bs := by
        rw [stuffLine_eq, hhead] at ih'
        by_cases hd : QByteArray.startsWith bs 46 = true
        · simp only [hd, if_true] at ih'
          rw [joinLines_cons_head] at ih'
          exact List.cons_injective ih'
        · simpa [hd] using ih'
      rw [replace_cons]
      by_cases hb : b = 10
      · subst hb
        have h46 : QByteArray.startsWith (10 :: bs) 46 = false := by
          simp [QByteArray.startsWith]
        simp only [refDotStuff, splitLines_cons, if_true, hs, List.map_cons, h46]
        rw [show stuffLine [] = [] from rfl, joinLines_nil_cons, ih']
        simp
      · simp only [refDotStuff, splitLines_cons, hb, if_false, hs, List.modifyHead_cons,
          List.map_cons, false_and]
        rw [stuffLine_eq]
        by_cases hd : b = 46
        · subst hd
          have : QByteArray.startsWith (46 :: bs) 46 = true := by simp [QByteArray.startsWith]
          have h2 : QByteArray.startsWith (46 :: l) 46 = true := by simp [QByteArray.startsWith]
          simp only [this, h2, if_true]
          rw [joinLines_cons_head, joinLines_cons_head, hrest]
        · have : QByteArray.startsWith (b :: bs) 46 = false := by simp [QByteArray.startsWith, hd]
          have h2 : QByteArray.startsWith (b :: l) 46 = false := by simp [QByteArray.startsWith, hd]
          simp only [this, h2, Bool.false_eq_true, if_false]
          rw [joinLines_cons_head, hrest]

theorem dotStuff_eq_ref (d : QByteArray) : dotStuff d = refDotStuff d := by
  rw [refDotStuff_eq, dotStuff, bytes_nl_dot, bytes_nl_dot_dot]
  by_cases h : QByteArray.startsWith d 46 = true
  · simp only [h, if_true, QByteArray.replace, QByteArray.prepend]
    rw [replace_cons]
    simp
  · simp [h, QByteArray.replace]


theorem submits_append (xs ys : List Effect) : submits (xs ++ ys) = submits xs ++ submits ys := by
  simp [submits, ops_append]

/-- The submit operation of the continuation in DATA mode. -/
theorem sendContinue_submits_data (s : SMTP) (h : s.sendingMode = SendingMode.MODE_SMTP_DATA) :
    submits s.sendContinueGotPassword.2 = [SmtpOp.sendMail s.from_ s.to_ (dotStuff s.data)] := by
  unfold SMTP.sendContinueGotPassword
  cases h1 : s.encryptedConnect <;> cases h2 : s.TLS <;> cases h3 : s.auth <;>
    simp [h, submits, ops, SmtpOp.isSubmit, dotStuff]

theorem dotStuff_unchanged (d : QByteArray)
    (h : ∀ l ∈ splitLines d, QByteArray.startsWith l 46 = false) : dotStuff d = d := by
  rw [dotStuff_eq_ref, refDotStuff]
  have hm : (splitLines d).map stuffLine = splitLines d := by
    conv_rhs => rw [← List.map_id (splitLines d)]
    apply List.map_congr_left
    intro l hl
    rw [stuffLine_eq, h l hl]
    simp
  rw [hm, joinLines, splitLines]
  exact List.intercalate_splitOn d (10 : UInt8)

/-! ## C3: the payload handed to `sendMail` -/

/-- C3: the dot-stuffing of the source equals the reference dot-stuffing (split on line
feeds, one more dot in front of every line that starts with a dot, join with line feeds);
that is the payload of the one submit operation of the continuation in DATA mode and of a
`sendMail` call that goes on at once; a payload none of whose lines starts with a dot is
unchanged, and so are the two examples of the specification. -/
theorem C3_dot_stuffing (s : SMTP) (from_ : QByteArray) (to_ : List QByteArray)
    (d : QByteArray) :
    dotStuff d = refDotStuff d ∧
    (s.sendingMode = SendingMode.MODE_SMTP_DATA →
      submits s.sendContinueGotPassword.2 = [SmtpOp.sendMail s.from_ s.to_ (refDotStuff s.data)]) ∧
    ((!s.auth || !QString.isEmpty s.pass) = true →
      submits (s.sendMail from_ to_ d).2 = [SmtpOp.sendMail from_ to_ (refDotStuff d)]) ∧
    ((∀ l ∈ splitLines d, QByteArray.startsWith l 46 = false) → dotStuff d = d) ∧
    dotStuff (bytes "Hello\n.\nWorld") = bytes "Hello\n..\nWorld" ∧
    dotStuff (bytes ".Start") = bytes "..Start" := by
  refine ⟨dotStuff_eq_ref d, ?_, ?_, dotStuff_unchanged d, by decide, by decide⟩
  · intro h
    rw [sendContinue_submits_data s h, dotStuff_eq_ref]
  · intro h
    simp only [SMTP.sendMail, h, if_true]
    rw [submits_append, sendContinue_submits_data _ rfl, dotStuff_eq_ref]
    simp [submits, ops, SmtpOp.isSubmit]

/-- C3 at a concrete controller (no auth, fresh) and the payload `Hello`, `World` on two
lines. -/
theorem C3_dot_stuffing_witness :
    submits ((SMTP.new "smtp.example.org" 25 false false false "").sendMail (bytes "a@b")
      [bytes "c@d"] (bytes "Hello\nWorld")).2
      = [SmtpOp.sendMail (bytes "a@b") [bytes "c@d"] (refDotStuff (bytes "Hello\nWorld"))] ∧
    dotStuff (bytes "Hello\nWorld") = bytes "Hello\nWorld" :=
  ⟨(C3_dot_stuffing (SMTP.new "smtp.example.org" 25 false false false "") (bytes "a@b")
      [bytes "c@d"] (bytes "Hello\nWorld")).2.2.1 (by decide),
    (C3_dot_stuffing (SMTP.new "smtp.example.org" 25 false false false "") (bytes "a@b")
      [bytes "c@d"] (bytes "Hello\nWorld")).2.2.2.1 (by decide)⟩

/-! ## C4: when the password is requested -/

theorem passwordRequests_append (xs ys : List Effect) :
    passwordRequests (xs ++ ys) = passwordRequests xs ++ passwordRequests ys := by
  simp [passwordRequests, signals_append]

theorem sendContinue_passwordRequests (s : SMTP) :
    passwordRequests s.sendContinueGotPassword.2 = [] := by
  unfold SMTP.sendContinueGotPassword
  cases h : s.sendingMode <;> cases h1 : s.encryptedConnect <;> cases h2 : s.TLS <;>
    cases h3 : s.auth <;> simp [passwordRequests, signals, Signal.isPasswordRequested]

theorem sendContinue_ops_head (s : SMTP) :
    (ops s.sendContinueGotPassword.2).head? = some s.connectOp := by
  unfold SMTP.sendContinueGotPassword SMTP.connectOp
  cases h : s.sendingMode <;> cases h1 : s.encryptedConnect <;> cases h2 : s.TLS <;>
    cases h3 : s.auth <;> simp [ops]

theorem needsPassword_cond (s : SMTP) :
    (!s.auth || !QString.isEmpty s.pass) = !s.needsPassword := by
  unfold SMTP.needsPassword
  cases s.auth <;> cases QString.isEmpty s.pass <;> rfl

/-- Without a password where one is needed, a step other than `setPassword` connects
nowhere: its only possible client operation is the disconnect request of `cancel`. -/
theorem step_no_connect (fmt : List QSslError → QString) (s : SMTP) (c : Call)
    (hn : s.needsPassword = true) (hc : c.isSetPassword = false) :
    (s.step fmt c).1.needsPassword = true ∧
      ∀ op ∈ ops (s.step fmt c).2, op = SmtpOp.disconnectFromHost := by
  have hcond : (!s.auth || !QString.isEmpty s.pass) = false := by
    rw [needsPassword_cond, hn]; rfl
  cases c with
  | sendMail f t d =>
    simp only [SMTP.step, SMTP.sendMail, hcond]
    simpa [SMTP.needsPassword, ops] using hn
  | sendBurl f t d =>
    simp only [SMTP.step, SMTP.sendBurl, hcond]
    simpa [SMTP.needsPassword, ops] using hn
  | setPassword p => simp [Call.isSetPassword] at hc
  | cancel =>
    simp only [SMTP.step, SMTP.cancel]
    split <;> simpa [SMTP.needsPassword, ops] using hn
  | handleDone ok e =>
    simp only [SMTP.step, SMTP.handleDone]
    split
    · simpa [SMTP.needsPassword, ops] using hn
    · split
      · simpa [SMTP.needsPassword, ops] using hn
      · split <;> simpa [SMTP.needsPassword, ops] using hn
  | handleError err msg => simpa [SMTP.step, SMTP.handleError, SMTP.needsPassword, ops] using hn
  | handleSslErrors errors =>
    simpa [SMTP.step, SMTP.handleSslErrors, SMTP.needsPassword, ops] using hn
  | connected => simpa [SMTP.step, SMTP.onConnected, SMTP.needsPassword, ops] using hn
  | logReceived d => simpa [SMTP.step, SMTP.onLogReceived, SMTP.needsPassword, ops] using hn
  | logSent d => simpa [SMTP.step, SMTP.onLogSent, SMTP.needsPassword, ops] using hn

theorem run_no_connect (fmt : List QSslError → QString) (trace : List Call) :
    ∀ s : SMTP, s.needsPassword = true → (∀ c ∈ trace, c.isSetPassword = false) →
      ∀ op ∈ ops (SMTP.run fmt s trace).2, op.isConnect = false := by
  induction trace with
  | nil => intro s _ _ op hop; simp [SMTP.run, ops] at hop
  | cons c cs ih =>
    intro s hn h op hop
    have hstep := step_no_connect fmt s c hn (h c (List.mem_cons_self _ _))
    simp only [SMTP.run, ops_append, List.mem_append] at hop
    rcases hop with hop | hop
    · rw [hstep.2 op hop]; rfl
    · exact ih _ hstep.1 (fun x hx => h x (List.mem_cons_of_mem _ hx)) op hop

/-- C4: a send call (`sendMail` or `sendBurl`) emits `passwordRequested` exactly when
auth is required and the stored password is empty, and then with the configured user and
host. In that case the send call invokes no client operation, a following `setPassword`
starts with the connect, and no sequence of calls and callbacks without a `setPassword`
ever connects. Otherwise the send call runs `sendContinueGotPassword` itself, on the
object with the request stored, after the three progress signals, and so starts with the
connect. -/
theorem C4_password_request (fmt : List QSslError → QString) (s : SMTP) (from_ : QByteArray)
    (to_ : List QByteArray) (data : QByteArray) (p : QString) (trace : List Call) :
    (passwordRequests (s.sendMail from_ to_ data).2 =
      if s.needsPassword then [Signal.passwordRequested s.user s.host] else []) ∧
    (passwordRequests (s.sendBurl from_ to_ data).2 =
      if s.needsPassword then [Signal.passwordRequested s.user s.host] else []) ∧
    (s.needsPassword = true →
      ops (s.sendMail from_ to_ data).2 = [] ∧ ops (s.sendBurl from_ to_ data).2 = [] ∧
      (ops ((s.sendMail from_ to_ data).1.setPassword p).2).head? = some s.connectOp ∧
      (ops ((s.sendBurl from_ to_ data).1.setPassword p).2).head? = some s.connectOp ∧
      ((∀ c ∈ trace, c.isSetPassword = false) →
        (∀ op ∈ ops (SMTP.run fmt (s.sendMail from_ to_ data).1 trace).2, op.isConnect = false) ∧
        (∀ op ∈ ops (SMTP.run fmt (s.sendBurl from_ to_ data).1 trace).2, op.isConnect = false))) ∧
    (s.needsPassword = false →
      s.sendMail from_ to_ data =
        (({ s with from_ := from_, to_ := to_, data := data,
                   sendingMode := SendingMode.MODE_SMTP_DATA,
                   isWaitingForPassword := true }).sendContinueGotPassword.1,
          [Effect.emit (Signal.progressMax data.length), Effect.emit (Signal.progress 0),
            Effect.emit Signal.connecting] ++
          ({ s with from_ := from_, to_ := to_, data := data,
                    sendingMode := SendingMode.MODE_SMTP_DATA,
                    isWaitingForPassword := true }).sendContinueGotPassword.2) ∧
      s.sendBurl from_ to_ data =
        (({ s with from_ := from_, to_ := to_, data := data,
                   sendingMode := SendingMode.MODE_SMTP_BURL,
                   isWaitingForPassword := true }).sendContinueGotPassword.1,
          [Effect.emit (Signal.progressMax 1), Effect.emit (Signal.progress 0),
            Effect.emit Signal.connecting] ++
          ({ s with from_ := from_, to_ := to_, data := data,
                    sendingMode := SendingMode.MODE_SMTP_BURL,
                    isWaitingForPassword := true }).sendContinueGotPassword.2) ∧
      (ops (s.sendMail from_ to_ data).2).head? = some s.connectOp ∧
      (ops (s.sendBurl from_ to_ data).2).head? = some s.connectOp) := by
  have hcond := needsPassword_cond s
  cases hn : s.needsPassword
  · -- no password needed: the call goes on at once
    have hc : (!s.auth || !QString.isEmpty s.pass) = true := by rw [hcond, hn]; rfl
    have hm : s.sendMail from_ to_ data =
        (({ s with from_ := from_, to_ := to_, data := data,
                   sendingMode := SendingMode.MODE_SMTP_DATA,
                   isWaitingForPassword := true }).sendContinueGotPassword.1,
          [Effect.emit (Signal.progressMax data.length), Effect.emit (Signal.progress 0),
            Effect.emit Signal.connecting] ++
          ({ s with from_ := from_, to_ := to_, data := data,
                    sendingMode := SendingMode.MODE_SMTP_DATA,
                    isWaitingForPassword := true }).sendContinueGotPassword.2) := by
      simp only [SMTP.sendMail, hc, if_true]
    have hb : s.sendBurl from_ to_ data =
        (({ s with from_ := from_, to_ := to_, data := data,
                   sendingMode := SendingMode.MODE_SMTP_BURL,
                   isWaitingForPassword := true }).sendContinueGotPassword.1,
          [Effect.emit (Signal.progressMax 1), Effect.emit (Signal.progress 0),
            Effect.emit Signal.connecting] ++
          ({ s with from_ := from_, to_ := to_, data := data,
                    sendingMode := SendingMode.MODE_SMTP_BURL,
                    isWaitingForPassword := true }).sendContinueGotPassword.2) := by
      simp only [SMTP.sendBurl, hc, if_true]
    refine ⟨?_, ?_, by simp, fun _ => ⟨hm, hb, ?_, ?_⟩⟩
    · rw [hm, passwordRequests_append, sendContinue_passwordRequests]
      simp [passwordRequests, signals, Signal.isPasswordRequested]
    · rw [hb, passwordRequests_append, sendContinue_passwordRequests]
      simp [passwordRequests, signals, Signal.isPasswordRequested]
    · rw [hm, ops_append]
      simpa [ops, SMTP.connectOp] using sendContinue_ops_head _
    · rw [hb, ops_append]
      simpa [ops, SMTP.connectOp] using sendContinue_ops_head _
  · have hc : (!s.auth || !QString.isEmpty s.pass) = false := by rw [hcond, hn]; rfl
    have hm : s.sendMail from_ to_ data =
        ({ s with from_ := from_, to_ := to_, data := data,
                  sendingMode := SendingMode.MODE_SMTP_DATA, isWaitingForPassword := true },
          [Effect.emit (Signal.progressMax data.length), Effect.emit (Signal.progress 0),
            Effect.emit Signal.connecting, Effect.emit (Signal.passwordRequested s.user s.host)]) := by
      simp [SMTP.sendMail, hc]
    have hb : s.sendBurl from_ to_ data =
        ({ s with from_ := from_, to_ := to_, data := data,
                  sendingMode := SendingMode.MODE_SMTP_BURL, isWaitingForPassword := true },
          [Effect.emit (Signal.progressMax 1), Effect.emit (Signal.progress 0),
            Effect.emit Signal.connecting, Effect.emit (Signal.passwordRequested s.user s.host)]) := by
      simp [SMTP.sendBurl, hc]
    refine ⟨?_, ?_, fun _ => ⟨?_, ?_, ?_, ?_, fun ht => ⟨?_, ?_⟩⟩, by simp⟩
    · rw [hm]; simp [passwordRequests, signals, Signal.isPasswordRequested]
    · rw [hb]; simp [passwordRequests, signals, Signal.isPasswordRequested]
    · rw [hm]; simp [ops]
    · rw [hb]; simp [ops]
    · rw [hm]
      simpa [SMTP.setPassword, SMTP.connectOp] using sendContinue_ops_head _
    · rw [hb]
      simpa [SMTP.setPassword, SMTP.connectOp] using sendContinue_ops_head _
    · refine run_no_connect fmt trace _ ?_ ht
      rw [hm]; simpa [SMTP.needsPassword] using hn
    · refine run_no_connect fmt trace _ ?_ ht
      rw [hb]; simpa [SMTP.needsPassword] using hn

/-- C4 at a fresh controller with auth required (the password is requested, and
`cancel` and a failure notification do not connect) and at one without auth (the send
call connects at once). -/
theorem C4_password_request_witness :
    (ops ((SMTP.new "smtp.example.org" 587 false true true "user").sendMail (bytes "a@b")
        [bytes "c@d"] (bytes "Hi")).2 = [] ∧
      ∀ op ∈ ops (SMTP.run fmtCount
          ((SMTP.new "smtp.example.org" 587 false true true "user").sendMail (bytes "a@b")
            [bytes "c@d"] (bytes "Hi")).1 [Call.cancel, Call.handleDone false ""]).2,
        op.isConnect = false) ∧
    (ops ((SMTP.new "smtp.example.org" 587 false true false "user").sendMail (bytes "a@b")
        [bytes "c@d"] (bytes "Hi")).2).head?
      = some (SMTP.new "smtp.example.org" 587 false true false "user").connectOp :=
  ⟨⟨((C4_password_request fmtCount (SMTP.new "smtp.example.org" 587 false true true "user")
        (bytes "a@b") [bytes "c@d"] (bytes "Hi") "secret"
        [Call.cancel, Call.handleDone false ""]).2.2.1 (by decide)).1,
      (((C4_password_request fmtCount (SMTP.new "smtp.example.org" 587 false true true "user")
        (bytes "a@b") [bytes "c@d"] (bytes "Hi") "secret"
        [Call.cancel, Call.handleDone false ""]).2.2.1 (by decide)).2.2.2.2 (by decide)).1⟩,
    ((C4_password_request fmtCount (SMTP.new "smtp.example.org" 587 false true false "user")
        (bytes "a@b") [bytes "c@d"] (bytes "Hi") "secret" []).2.2.2 (by decide)).2.2.1⟩

/-! ## C5: cancel twice -/

/-- C5: in a state where `failed` is not set, two consecutive `cancel()` calls emit one
error in all, with the text "Sending of the message was cancelled"; the object after the
second call equals the object after the first, and the second call emits no signal (it
only repeats the disconnect request to the client). -/
theorem C5_cancel_idempotent (s : SMTP) (h : s.failed = false) :
    signals (s.cancel.2 ++ s.cancel.1.cancel.2)
      = [Signal.error "Sending of the message was cancelled"] ∧
    s.cancel.1.cancel.1 = s.cancel.1 ∧
    signals s.cancel.1.cancel.2 = [] ∧
    s.cancel.1.cancel.2 = [Effect.call SmtpOp.disconnectFromHost] := by
  simp [SMTP.cancel, h, signals, tr]

/-- C5 at a fresh controller. -/
theorem C5_cancel_idempotent_witness :
    signals ((SMTP.new "smtp.example.org" 25 false false true "user").cancel.2 ++
        (SMTP.new "smtp.example.org" 25 false false true "user").cancel.1.cancel.2)
      = [Signal.error "Sending of the message was cancelled"] ∧
    (SMTP.new "smtp.example.org" 25 false false true "user").cancel.1.cancel.1
      = (SMTP.new "smtp.example.org" 25 false false true "user").cancel.1 ∧
    signals (SMTP.new "smtp.example.org" 25 false false true "user").cancel.1.cancel.2 = [] ∧
    (SMTP.new "smtp.example.org" 25 false false true "user").cancel.1.cancel.2
      = [Effect.call SmtpOp.disconnectFromHost] :=
  C5_cancel_idempotent (SMTP.new "smtp.example.org" 25 false false true "user") rfl

/-! ## C6: the completion callback -/

theorem arg_failed_with (e : QString) :
    QString.arg (tr "Sending of the message failed with the following error: %1") e
      = "Sending of the message failed with the following error: " ++ e := by
  simp [QString.arg, tr, replaceFrom]
  rfl

theorem isEmpty_iff (e : QString) : QString.isEmpty e = true ↔ e = "" := by
  cases e with
  | mk d => cases d <;> simp [QString.isEmpty, String.ext_iff]

/-- C6, refuted as stated: with the client's error text "550 Mailbox unavailable" the
message reported by `handleDone(false)` is not that text but the sentence "Sending of the
message failed with the following error: " followed by it. -/
theorem C6_counterexample :
    ((SMTP.new "smtp.example.org" 25 false false false "").handleDone false
        "550 Mailbox unavailable").2
      = [Effect.emit (Signal.error
          "Sending of the message failed with the following error: 550 Mailbox unavailable")] ∧
    ((SMTP.new "smtp.example.org" 25 false false false "").handleDone false
        "550 Mailbox unavailable").2
      ≠ [Effect.emit (Signal.error "550 Mailbox unavailable")] := by
  decide

/-- C6, amended: in a state where `failed` is not set, `handleDone(true)` emits exactly
`sent` and changes nothing, and `handleDone(false)` sets `failed`, changes nothing else,
and emits exactly one error, whose message is "Sending of the message failed." when the
client's error text is empty and otherwise "Sending of the message failed with the
following error: " followed by that text. -/
theorem C6_handleDone (s : SMTP) (e : QString) (h : s.failed = false) :
    s.handleDone true e = (s, [Effect.emit Signal.sent]) ∧
    s.handleDone false e =
      ({ s with failed := true },
        [Effect.emit (Signal.error
          (if e = "" then "Sending of the message failed."
            else "Sending of the message failed with the following error: " ++ e))]) := by
  constructor
  · simp [SMTP.handleDone, h]
  · by_cases he : e = ""
    · subst he
      simp [SMTP.handleDone, h, tr, QString.isEmpty]
    · have : QString.isEmpty e = false := by
        cases hq : QString.isEmpty e
        · rfl
        · exact absurd ((isEmpty_iff e).1 hq) he
      simp [SMTP.handleDone, h, this, he, arg_failed_with]

/-- C6, amended, at a fresh controller and the error text "550 Mailbox unavailable". -/
theorem C6_handleDone_witness :
    (SMTP.new "smtp.example.org" 25 false false false "").handleDone true
        "550 Mailbox unavailable"
      = (SMTP.new "smtp.example.org" 25 false false false "", [Effect.emit Signal.sent]) ∧
    (SMTP.new "smtp.example.org" 25 false false false "").handleDone false
        "550 Mailbox unavailable"
      = ({ SMTP.new "smtp.example.org" 25 false false false "" with failed := true },
        [Effect.emit (Signal.error
          (if "550 Mailbox unavailable" = "" then "Sending of the message failed."
            else "Sending of the message failed with the following error: "
              ++ "550 Mailbox unavailable"))]) :=
  C6_handleDone (SMTP.new "smtp.example.org" 25 false false false "")
    "550 Mailbox unavailable" rfl

/-! ## C7: duplicate suppression -/

/-- C7: in a state where `failed` is set, `handleDone(ok)` emits nothing, invokes
nothing and leaves the object unchanged, for both values of `ok` and every error text of
the client. -/
theorem C7_duplicate_suppression (s : SMTP) (ok : Bool) (e : QString) (h : s.failed = true) :
    s.handleDone ok e = (s, []) := by
  simp [SMTP.handleDone, h]

/-- C7 at a controller that was cancelled. -/
theorem C7_duplicate_suppression_witness :
    (SMTP.new "smtp.example.org" 25 false false false "").cancel.1.handleDone true "250 OK"
      = ((SMTP.new "smtp.example.org" 25 false false false "").cancel.1, []) :=
  C7_duplicate_suppression (SMTP.new "smtp.example.org" 25 false false false "").cancel.1
    true "250 OK" rfl

/-! ## C8: the socket-error callback -/

/-- C8: in every state, for every socket error code and every message,
`handleError(code, msg)` sets `failed`, changes no other member and emits exactly one
error carrying `msg` unmodified; after any `sendBurl` the callback
`handleError(ConnectionRefusedError, "connection refused")` reports
`error("connection refused")`. -/
theorem C8_handleError (s : SMTP) (err : SocketError) (msg : QString)
    (from_ : QByteArray) (to_ : List QByteArray) (imapUrl : QByteArray) :
    s.handleError err msg = ({ s with failed := true }, [Effect.emit (Signal.error msg)]) ∧
    signals ((s.sendBurl from_ to_ imapUrl).1.handleError ConnectionRefusedError
      "connection refused").2 = [Signal.error "connection refused"] := by
  simp [SMTP.handleError, signals]

/-! ## C9: one submit, stuffed once -/

/-- A step that is no send call, on an object that does not wait: it goes on not
waiting and submits nothing. -/
theorem step_idle (fmt : List QSslError → QString) (s : SMTP) (c : Call)
    (hw : s.isWaitingForPassword = false) (hc : c.isSend = false) :
    (s.step fmt c).1.isWaitingForPassword = false ∧ submits (s.step fmt c).2 = [] := by
  cases c with
  | sendMail f t d => simp [Call.isSend] at hc
  | sendBurl f t d => simp [Call.isSend] at hc
  | setPassword p => simp [SMTP.step, SMTP.setPassword, hw, submits, ops]
  | cancel =>
    simp only [SMTP.step, SMTP.cancel]
    split <;> simp [hw, submits, ops, SmtpOp.isSubmit]
  | handleDone ok e =>
    simp only [SMTP.step, SMTP.handleDone]
    split
    · simp [hw, submits, ops]
    · split
      · simp [hw, submits, ops]
      · split <;> simp [hw, submits, ops]
  | handleError err msg => simp [SMTP.step, SMTP.handleError, hw, submits, ops]
  | handleSslErrors errors => simp [SMTP.step, SMTP.handleSslErrors, hw, submits, ops]
  | connected => simp [SMTP.step, SMTP.onConnected, hw, submits, ops]
  | logReceived d => simp [SMTP.step, SMTP.onLogReceived, hw, submits, ops]
  | logSent d => simp [SMTP.step, SMTP.onLogSent, hw, submits, ops]

/-- A step that is no send call, on an object that waits with a DATA request stored:
either it keeps waiting with the same request and submits nothing, or it stops waiting
and submits the stored request, dot-stuffed. -/
theorem step_pending (fmt : List QSslError → QString) (s : SMTP) (c : Call)
    (f : QByteArray) (t : List QByteArray) (d : QByteArray)
    (hp : s.Pending f t d) (hc : c.isSend = false) :
    ((s.step fmt c).1.Pending f t d ∧ submits (s.step fmt c).2 = []) ∨
    ((s.step fmt c).1.isWaitingForPassword = false ∧
      submits (s.step fmt c).2 = [SmtpOp.sendMail f t (dotStuff d)]) := by
  obtain ⟨hw, hm, hf, ht, hd⟩ := hp
  cases c with
  | sendMail f t d => simp [Call.isSend] at hc
  | sendBurl f t d => simp [Call.isSend] at hc
  | setPassword p =>
    right
    simp only [SMTP.step, SMTP.setPassword, hw, if_true]
    refine ⟨sendContinue_waiting _, ?_⟩
    rw [sendContinue_submits_data _ (by simpa using hm)]
    simp [hf, ht, hd]
  | cancel =>
    left
    simp only [SMTP.step, SMTP.cancel]
    split <;> simp [SMTP.Pending, hw, hm, hf, ht, hd, submits, ops, SmtpOp.isSubmit]
  | handleDone ok e =>
    left
    simp only [SMTP.step, SMTP.handleDone]
    split
    · simp [SMTP.Pending, hw, hm, hf, ht, hd, submits, ops]
    · split
      · simp [SMTP.Pending, hw, hm, hf, ht, hd, submits, ops]
      · split <;> simp [SMTP.Pending, hw, hm, hf, ht, hd, submits, ops]
  | handleError err msg =>
    left; simp [SMTP.step, SMTP.handleError, SMTP.Pending, hw, hm, hf, ht, hd, submits, ops]
  | handleSslErrors errors =>
    left; simp [SMTP.step, SMTP.handleSslErrors, SMTP.Pending, hw, hm, hf, ht, hd, submits, ops]
  | connected =>
    left; simp [SMTP.step, SMTP.onConnected, SMTP.Pending, hw, hm, hf, ht, hd, submits, ops]
  | logReceived d =>
    left; simp [SMTP.step, SMTP.onLogReceived, SMTP.Pending, hw, hm, hf, ht, hd, submits, ops]
  | logSent d =>
    left; simp [SMTP.step, SMTP.onLogSent, SMTP.Pending, hw, hm, hf, ht, hd, submits, ops]

theorem run_idle (fmt : List QSslError → QString) (trace : List Call) :
    ∀ s : SMTP, s.isWaitingForPassword = false → (∀ c ∈ trace, c.isSend = false) →
      (SMTP.run fmt s trace).1.isWaitingForPassword = false ∧
        submits (SMTP.run fmt s trace).2 = [] := by
  induction trace with
  | nil => intro s hw _; exact ⟨hw, rfl⟩
  | cons c cs ih =>
    intro s hw h
    have h1 := step_idle fmt s c hw (h c (List.mem_cons_self _ _))
    have h2 := ih _ h1.1 (fun x hx => h x (List.mem_cons_of_mem _ hx))
    simp only [SMTP.run, submits_append, h1.2, h2.2, List.append_nil]
    exact ⟨h2.1, trivial⟩

theorem run_pending (fmt : List QSslError → QString) (f : QByteArray) (t : List QByteArray)
    (d : QByteArray) (trace : List Call) :
    ∀ s : SMTP, s.Pending f t d → (∀ c ∈ trace, c.isSend = false) →
      submits (SMTP.run fmt s trace).2 = [] ∨
        submits (SMTP.run fmt s trace).2 = [SmtpOp.sendMail f t (dotStuff d)] := by
  induction trace with
  | nil => intro s _ _; left; rfl
  | cons c cs ih =>
    intro s hp h
    have hrest : ∀ x ∈ cs, x.isSend = false := fun x hx => h x (List.mem_cons_of_mem _ hx)
    rcases step_pending fmt s c f t d hp (h c (List.mem_cons_self _ _)) with ⟨hp', hs⟩ | ⟨hw', hs⟩
    · simpa [SMTP.run, submits_append, hs] using ih _ hp' hrest
    · right
      simp [SMTP.run, submits_append, hs, (run_idle fmt cs _ hw' hrest).2]

/-- C9: in every sequence of calls and callbacks on a fresh controller that holds
exactly one send call, a `sendMail(from, to, data)`, the client receives at most one
submit operation, and that one is `sendMail(from, to, d)` with `d` the dot-stuffing of
`data` applied once. -/
theorem C9_single_submit (fmt : List QSslError → QString) (host : QString) (port : Nat)
    (encryptedConnect TLS auth : Bool) (user : QString) (pre post : List Call)
    (from_ : QByteArray) (to_ : List QByteArray) (data : QByteArray)
    (hpre : ∀ c ∈ pre, c.isSend = false) (hpost : ∀ c ∈ post, c.isSend = false) :
    submits (SMTP.run fmt (SMTP.new host port encryptedConnect TLS auth user)
        (pre ++ Call.sendMail from_ to_ data :: post)).2 = [] ∨
    submits (SMTP.run fmt (SMTP.new host port encryptedConnect TLS auth user)
        (pre ++ Call.sendMail from_ to_ data :: post)).2
      = [SmtpOp.sendMail from_ to_ (dotStuff data)] := by
  have h0 := run_idle fmt pre (SMTP.new host port encryptedConnect TLS auth user) rfl hpre
  rw [run_append]
  simp only [submits_append, h0.2, List.nil_append, SMTP.run, SMTP.step]
  generalize (SMTP.run fmt (SMTP.new host port encryptedConnect TLS auth user) pre).1 = s
  by_cases hc : (!s.auth || !QString.isEmpty s.pass) = true
  · right
    have hs : s.sendMail from_ to_ data =
        (({ s with from_ := from_, to_ := to_, data := data,
                   sendingMode := SendingMode.MODE_SMTP_DATA,
                   isWaitingForPassword := true }).sendContinueGotPassword.1,
          [Effect.emit (Signal.progressMax data.length), Effect.emit (Signal.progress 0),
            Effect.emit Signal.connecting] ++
          ({ s with from_ := from_, to_ := to_, data := data,
                    sendingMode := SendingMode.MODE_SMTP_DATA,
                    isWaitingForPassword := true }).sendContinueGotPassword.2) := by
      simp only [SMTP.sendMail, hc, if_true]
    rw [hs]
    simp only [submits_append]
    rw [sendContinue_submits_data _ rfl, (run_idle fmt post _ (sendContinue_waiting _) hpost).2]
    simp [submits, ops]
  · have hs : s.sendMail from_ to_ data =
        ({ s with from_ := from_, to_ := to_, data := data,
                  sendingMode := SendingMode.MODE_SMTP_DATA, isWaitingForPassword := true },
          [Effect.emit (Signal.progressMax data.length), Effect.emit (Signal.progress 0),
            Effect.emit Signal.connecting, Effect.emit (Signal.passwordRequested s.user s.host)]) := by
      simp only [SMTP.sendMail, hc]
      simp
    rw [hs]
    have := run_pending fmt from_ to_ data post
      { s with from_ := from_, to_ := to_, data := data,
               sendingMode := SendingMode.MODE_SMTP_DATA, isWaitingForPassword := true }
      ⟨rfl, rfl, rfl, rfl, rfl⟩ hpost
    simpa [submits, ops] using this

/-- C9 at a sequence in which the password is set before the send call, twice after it,
and the controller is cancelled in between; the payload starts with a dot. -/
theorem C9_single_submit_witness :
    submits (SMTP.run fmtCount (SMTP.new "smtp.example.org" 587 false true true "user")
        ([Call.cancel] ++ Call.sendMail (bytes "a@b") [bytes "c@d"] (bytes ".Hi") ::
          [Call.setPassword "x", Call.handleDone true "", Call.setPassword "y"])).2 = [] ∨
    submits (SMTP.run fmtCount (SMTP.new "smtp.example.org" 587 false true true "user")
        ([Call.cancel] ++ Call.sendMail (bytes "a@b") [bytes "c@d"] (bytes ".Hi") ::
          [Call.setPassword "x", Call.handleDone true "", Call.setPassword "y"])).2
      = [SmtpOp.sendMail (bytes "a@b") [bytes "c@d"] (dotStuff (bytes ".Hi"))] :=
  C9_single_submit fmtCount "smtp.example.org" 587 false true true "user" [Call.cancel]
    [Call.setPassword "x", Call.handleDone true "", Call.setPassword "y"]
    (bytes "a@b") [bytes "c@d"] (bytes ".Hi") (by decide) (by decide)

/-! ## C10: the order of the effects of the continuation -/

/-- C10: in a valid mode `sendContinueGotPassword` performs exactly these effects in this
order: the connect to (host, port), encrypted exactly when `encryptedConnect` is set; the
TLS upgrade exactly when `TLS` is set; `authenticate(user, pass, AuthAny)` exactly when
`auth` is set; the signal `sending`; one submit operation (`sendMail` with the
dot-stuffed data in DATA mode, `sendMailBurl` with the data as stored in BURL mode); the
disconnect request. -/
theorem C10_connect_and_send (s : SMTP)
    (h : s.sendingMode ≠ SendingMode.MODE_SMTP_INVALID) :
    s.sendContinueGotPassword.2 =
      [Effect.call (if s.encryptedConnect then SmtpOp.connectToHostEncrypted s.host s.port
          else SmtpOp.connectToHost s.host s.port)]
      ++ (if s.TLS then [Effect.call SmtpOp.TLS] else [])
      ++ (if s.auth then [Effect.call (SmtpOp.authenticate s.user s.pass AuthMode.AuthAny)]
          else [])
      ++ [Effect.emit Signal.sending]
      ++ [Effect.call (if s.sendingMode = SendingMode.MODE_SMTP_DATA
            then SmtpOp.sendMail s.from_ s.to_ (dotStuff s.data)
            else SmtpOp.sendMailBurl s.from_ s.to_ s.data)]
      ++ [Effect.call SmtpOp.disconnectFromHost] := by
  unfold SMTP.sendContinueGotPassword
  cases hm : s.sendingMode <;> cases h1 : s.encryptedConnect <;> cases h2 : s.TLS <;>
    cases h3 : s.auth <;> simp_all [dotStuff]

/-- C10 at a controller with TLS and auth configured that holds a BURL request. -/
theorem C10_connect_and_send_witness :
    ((SMTP.new "smtp.example.org" 587 false true true "user").sendBurl (bytes "a@b")
        [bytes "c@d"] (bytes "imap://x")).1.sendContinueGotPassword.2
      = [Effect.call (SmtpOp.connectToHost "smtp.example.org" 587), Effect.call SmtpOp.TLS,
          Effect.call (SmtpOp.authenticate "user" "" AuthMode.AuthAny),
          Effect.emit Signal.sending,
          Effect.call (SmtpOp.sendMailBurl (bytes "a@b") [bytes "c@d"] (bytes "imap://x")),
          Effect.call SmtpOp.disconnectFromHost] :=
  C10_connect_and_send ((SMTP.new "smtp.example.org" 587 false true true "user").sendBurl
    (bytes "a@b") [bytes "c@d"] (bytes "imap://x")).1 (by decide)

/-! ## C11: the scenario with a requested password -/

/-- C11: on a fresh controller with auth required and no stored password, for every
sender, recipient list, message and password `p`: `sendMail` performs exactly
`progressMax(N)`, `progress(0)`, `connecting`, `passwordRequested(user, host)` with `N`
the length of the message; `setPassword(p)` then emits `sending` and no other signal and
authenticates with `p`; a following `handleDone(true)` emits `sent`; the signals of the
three calls together are those six, in that order. -/
theorem C11_scenario (fmt : List QSslError → QString) (host : QString) (port : Nat) (encryptedConnect TLS : Bool)
    (user : QString) (from_ : QByteArray) (to_ : List QByteArray) (data : QByteArray)
    (p e : QString) :
    ((SMTP.new host port encryptedConnect TLS true user).sendMail from_ to_ data).2
      = [Effect.emit (Signal.progressMax data.length), Effect.emit (Signal.progress 0),
          Effect.emit Signal.connecting, Effect.emit (Signal.passwordRequested user host)] ∧
    signals (((SMTP.new host port encryptedConnect TLS true user).sendMail from_ to_ data).1.setPassword p).2
      = [Signal.sending] ∧
    SmtpOp.authenticate user p AuthMode.AuthAny ∈
      ops (((SMTP.new host port encryptedConnect TLS true user).sendMail from_ to_ data).1.setPassword p).2 ∧
    ((((SMTP.new host port encryptedConnect TLS true user).sendMail from_ to_ data).1.setPassword p).1.handleDone
        true e).2 = [Effect.emit Signal.sent] ∧
    signals (SMTP.run fmt (SMTP.new host port encryptedConnect TLS true user)
        [Call.sendMail from_ to_ data, Call.setPassword p, Call.handleDone true e]).2
      = [Signal.progressMax data.length, Signal.progress 0, Signal.connecting,
          Signal.passwordRequested user host, Signal.sending, Signal.sent] := by
  cases encryptedConnect <;> cases TLS <;>
    simp [SMTP.new, SMTP.sendMail, SMTP.setPassword, SMTP.sendContinueGotPassword,
      SMTP.handleDone, SMTP.run, SMTP.step, QString.isEmpty, signals, ops]

/-! ## C12: the progress signals -/

/-- C12: in every state, the first three effects of `sendMail` are the signals
`progressMax(N)`, with `N` the length of the payload as given, `progress(0)` and
`connecting`; those of `sendBurl` are `progressMax(1)`, `progress(0)` and `connecting`,
whatever the length of the URL. -/
theorem C12_progress (s : SMTP) (from_ : QByteArray) (to_ : List QByteArray)
    (data imapUrl : QByteArray) :
    (signals (s.sendMail from_ to_ data).2).take 3
      = [Signal.progressMax data.length, Signal.progress 0, Signal.connecting] ∧
    (signals (s.sendBurl from_ to_ imapUrl).2).take 3
      = [Signal.progressMax 1, Signal.progress 0, Signal.connecting] ∧
    (s.sendMail from_ to_ data).2.take 3
      = [Effect.emit (Signal.progressMax data.length), Effect.emit (Signal.progress 0),
          Effect.emit Signal.connecting] ∧
    (s.sendBurl from_ to_ imapUrl).2.take 3
      = [Effect.emit (Signal.progressMax 1), Effect.emit (Signal.progress 0),
          Effect.emit Signal.connecting] := by
  refine ⟨?_, ?_, ?_, ?_⟩
  · simp only [SMTP.sendMail]; split <;> simp [signals]
  · simp only [SMTP.sendBurl]; split <;> simp [signals]
  · simp only [SMTP.sendMail]; split <;> simp
  · simp only [SMTP.sendBurl]; split <;> simp

/-! ## C13: the payload handed to `sendMailBurl` -/

theorem connects_append (xs ys : List Effect) :
    connects (xs ++ ys) = connects xs ++ connects ys := by
  simp [connects, ops_append]

theorem sendContinue_submits_burl (s : SMTP) (h : s.sendingMode = SendingMode.MODE_SMTP_BURL) :
    submits s.sendContinueGotPassword.2 = [SmtpOp.sendMailBurl s.from_ s.to_ s.data] := by
  unfold SMTP.sendContinueGotPassword
  cases h1 : s.encryptedConnect <;> cases h2 : s.TLS <;> cases h3 : s.auth <;>
    simp [h, submits, ops, SmtpOp.isSubmit]

theorem step_pending_burl (fmt : List QSslError → QString) (s : SMTP) (c : Call)
    (f : QByteArray) (t : List QByteArray) (u : QByteArray)
    (hp : s.PendingBurl f t u) (hc : c.isSend = false) :
    ((s.step fmt c).1.PendingBurl f t u ∧ submits (s.step fmt c).2 = []) ∨
    ((s.step fmt c).1.isWaitingForPassword = false ∧
      submits (s.step fmt c).2 = [SmtpOp.sendMailBurl f t u]) := by
  obtain ⟨hw, hm, hf, ht, hd⟩ := hp
  cases c with
  | sendMail f t d => simp [Call.isSend] at hc
  | sendBurl f t d => simp [Call.isSend] at hc
  | setPassword p =>
    right
    simp only [SMTP.step, SMTP.setPassword, hw, if_true]
    refine ⟨sendContinue_waiting _, ?_⟩
    rw [sendContinue_submits_burl _ (by simpa using hm)]
    simp [hf, ht, hd]
  | cancel =>
    left
    simp only [SMTP.step, SMTP.cancel]
    split <;> simp [SMTP.PendingBurl, hw, hm, hf, ht, hd, submits, ops, SmtpOp.isSubmit]
  | handleDone ok e =>
    left
    simp only [SMTP.step, SMTP.handleDone]
    split
    · simp [SMTP.PendingBurl, hw, hm, hf, ht, hd, submits, ops]
    · split
      · simp [SMTP.PendingBurl, hw, hm, hf, ht, hd, submits, ops]
      · split <;> simp [SMTP.PendingBurl, hw, hm, hf, ht, hd, submits, ops]
  | handleError err msg =>
    left; simp [SMTP.step, SMTP.handleError, SMTP.PendingBurl, hw, hm, hf, ht, hd, submits, ops]
  | handleSslErrors errors =>
    left
    simp [SMTP.step, SMTP.handleSslErrors, SMTP.PendingBurl, hw, hm, hf, ht, hd, submits, ops]
  | connected =>
    left; simp [SMTP.step, SMTP.onConnected, SMTP.PendingBurl, hw, hm, hf, ht, hd, submits, ops]
  | logReceived d =>
    left; simp [SMTP.step, SMTP.onLogReceived, SMTP.PendingBurl, hw, hm, hf, ht, hd, submits, ops]
  | logSent d =>
    left; simp [SMTP.step, SMTP.onLogSent, SMTP.PendingBurl, hw, hm, hf, ht, hd, submits, ops]

theorem run_pending_burl (fmt : List QSslError → QString) (f : QByteArray)
    (t : List QByteArray) (u : QByteArray) (trace : List Call) :
    ∀ s : SMTP, s.PendingBurl f t u → (∀ c ∈ trace, c.isSend = false) →
      submits (SMTP.run fmt s trace).2 = [] ∨
        submits (SMTP.run fmt s trace).2 = [SmtpOp.sendMailBurl f t u] := by
  induction trace with
  | nil => intro s _ _; left; rfl
  | cons c cs ih =>
    intro s hp h
    have hrest : ∀ x ∈ cs, x.isSend = false := fun x hx => h x (List.mem_cons_of_mem _ hx)
    rcases step_pending_burl fmt s c f t u hp (h c (List.mem_cons_self _ _)) with
      ⟨hp', hs⟩ | ⟨hw', hs⟩
    · simpa [SMTP.run, submits_append, hs] using ih _ hp' hrest
    · right
      simp [SMTP.run, submits_append, hs, (run_idle fmt cs _ hw' hrest).2]

/-- C13: `sendBurl(from, to, imapUrl)` hands to `sendMailBurl` exactly `from`, `to` and
`imapUrl`, unchanged, whenever it reaches the continuation: at once when no password is
needed, in the following `setPassword` when one is; and in every sequence of calls and
callbacks without a further send call that follows it, the submit operations are none or
that single one. -/
theorem C13_burl_payload (fmt : List QSslError → QString) (s : SMTP) (from_ : QByteArray)
    (to_ : List QByteArray) (imapUrl : QByteArray) (p : QString) (post : List Call) :
    (s.needsPassword = false →
      submits (s.sendBurl from_ to_ imapUrl).2 = [SmtpOp.sendMailBurl from_ to_ imapUrl]) ∧
    (s.needsPassword = true →
      submits (s.sendBurl from_ to_ imapUrl).2 = [] ∧
      submits ((s.sendBurl from_ to_ imapUrl).1.setPassword p).2
        = [SmtpOp.sendMailBurl from_ to_ imapUrl]) ∧
    ((∀ c ∈ post, c.isSend = false) →
      submits (SMTP.run fmt s (Call.sendBurl from_ to_ imapUrl :: post)).2 = [] ∨
      submits (SMTP.run fmt s (Call.sendBurl from_ to_ imapUrl :: post)).2
        = [SmtpOp.sendMailBurl from_ to_ imapUrl]) := by
  have hcond := needsPassword_cond s
  cases hn : s.needsPassword
  · have hc : (!s.auth || !QString.isEmpty s.pass) = true := by rw [hcond, hn]; rfl
    have hb : s.sendBurl from_ to_ imapUrl =
        (({ s with from_ := from_, to_ := to_, data := imapUrl,
                   sendingMode := SendingMode.MODE_SMTP_BURL,
                   isWaitingForPassword := true }).sendContinueGotPassword.1,
          [Effect.emit (Signal.progressMax 1), Effect.emit (Signal.progress 0),
            Effect.emit Signal.connecting] ++
          ({ s with from_ := from_, to_ := to_, data := imapUrl,
                    sendingMode := SendingMode.MODE_SMTP_BURL,
                    isWaitingForPassword := true }).sendContinueGotPassword.2) := by
      simp only [SMTP.sendBurl, hc, if_true]
    have hsub : submits (s.sendBurl from_ to_ imapUrl).2
        = [SmtpOp.sendMailBurl from_ to_ imapUrl] := by
      rw [hb, submits_append, sendContinue_submits_burl _ rfl]
      simp [submits, ops]
    refine ⟨fun _ => hsub, by simp, fun hpost => Or.inr ?_⟩
    simp only [SMTP.run, SMTP.step, submits_append, hsub]
    rw [(run_idle fmt post _ (by rw [hb]; simp only []; exact sendContinue_waiting _) hpost).2]
    rfl
  · have hc : (!s.auth || !QString.isEmpty s.pass) = false := by rw [hcond, hn]; rfl
    have hb : s.sendBurl from_ to_ imapUrl =
        ({ s with from_ := from_, to_ := to_, data := imapUrl,
                  sendingMode := SendingMode.MODE_SMTP_BURL, isWaitingForPassword := true },
          [Effect.emit (Signal.progressMax 1), Effect.emit (Signal.progress 0),
            Effect.emit Signal.connecting, Effect.emit (Signal.passwordRequested s.user s.host)]) := by
      simp [SMTP.sendBurl, hc]
    refine ⟨by simp, fun _ => ⟨by rw [hb]; simp [submits, ops], ?_⟩, fun hpost => ?_⟩
    · rw [hb]
      simp only [SMTP.setPassword, if_true]
      rw [sendContinue_submits_burl _ rfl]
    · simp only [SMTP.run, SMTP.step, submits_append]
      rw [hb]
      have := run_pending_burl fmt from_ to_ imapUrl post
        { s with from_ := from_, to_ := to_, data := imapUrl,
                 sendingMode := SendingMode.MODE_SMTP_BURL, isWaitingForPassword := true }
        ⟨rfl, rfl, rfl, rfl, rfl⟩ hpost
      simpa [submits, ops] using this

/-- C13 at a URL that starts with a dot and holds a line feed followed by a dot, on a
fresh controller with auth required. -/
theorem C13_burl_payload_witness :
    (submits ((SMTP.new "smtp.example.org" 587 false true true "user").sendBurl (bytes "a@b")
        [bytes "c@d", bytes "e@f"] (bytes ".imap\n.x")).2 = [] ∧
      submits (((SMTP.new "smtp.example.org" 587 false true true "user").sendBurl (bytes "a@b")
        [bytes "c@d", bytes "e@f"] (bytes ".imap\n.x")).1.setPassword "secret").2
        = [SmtpOp.sendMailBurl (bytes "a@b") [bytes "c@d", bytes "e@f"] (bytes ".imap\n.x")]) ∧
    (submits (SMTP.run fmtCount (SMTP.new "smtp.example.org" 587 false true true "user")
        (Call.sendBurl (bytes "a@b") [bytes "c@d", bytes "e@f"] (bytes ".imap\n.x") ::
          [Call.cancel, Call.setPassword "secret"])).2 = [] ∨
      submits (SMTP.run fmtCount (SMTP.new "smtp.example.org" 587 false true true "user")
        (Call.sendBurl (bytes "a@b") [bytes "c@d", bytes "e@f"] (bytes ".imap\n.x") ::
          [Call.cancel, Call.setPassword "secret"])).2
        = [SmtpOp.sendMailBurl (bytes "a@b") [bytes "c@d", bytes "e@f"] (bytes ".imap\n.x")]) :=
  ⟨(C13_burl_payload fmtCount (SMTP.new "smtp.example.org" 587 false true true "user")
      (bytes "a@b") [bytes "c@d", bytes "e@f"] (bytes ".imap\n.x") "secret"
      [Call.cancel, Call.setPassword "secret"]).2.1 (by decide),
    (C13_burl_payload fmtCount (SMTP.new "smtp.example.org" 587 false true true "user")
      (bytes "a@b") [bytes "c@d", bytes "e@f"] (bytes ".imap\n.x") "secret"
      [Call.cancel, Call.setPassword "secret"]).2.2 (by decide)⟩

/-! ## C14: a password that nobody waits for -/

/-- C14: in every state in which `isWaitingForPassword` is false, `setPassword(p)`
changes only the stored password, to `p`, emits nothing and invokes nothing; so it is on
a fresh controller, before any send call, and for a second `setPassword` that follows
another one. -/
theorem C14_setPassword_idle (s : SMTP) (p q : QString) (host : QString) (port : Nat)
    (encryptedConnect TLS auth : Bool) (user : QString) :
    (s.isWaitingForPassword = false → s.setPassword p = ({ s with pass := p }, [])) ∧
    (SMTP.new host port encryptedConnect TLS auth user).setPassword p
      = ({ SMTP.new host port encryptedConnect TLS auth user with pass := p }, []) ∧
    (s.setPassword p).1.setPassword q = ({ (s.setPassword p).1 with pass := q }, []) := by
  refine ⟨fun h => by simp [SMTP.setPassword, h], by simp [SMTP.setPassword, SMTP.new], ?_⟩
  have hw : (s.setPassword p).1.isWaitingForPassword = false := by
    simp only [SMTP.setPassword]
    split
    · exact sendContinue_waiting _
    · rename_i h
      simpa using h
  generalize (s.setPassword p).1 = s1 at hw
  simp [SMTP.setPassword, hw]

/-- C14 at a controller whose request was already sent without auth. -/
theorem C14_setPassword_idle_witness :
    ((SMTP.new "smtp.example.org" 25 false false false "").sendMail (bytes "a@b")
        [bytes "c@d"] (bytes "Hi")).1.setPassword "late"
      = ({ ((SMTP.new "smtp.example.org" 25 false false false "").sendMail (bytes "a@b")
            [bytes "c@d"] (bytes "Hi")).1 with pass := "late" }, []) :=
  (C14_setPassword_idle ((SMTP.new "smtp.example.org" 25 false false false "").sendMail
    (bytes "a@b") [bytes "c@d"] (bytes "Hi")).1 "late" "" "" 0 false false false "").1
    (by decide)

/-! ## C15: the default branch of the switch on the mode -/

theorem arg_ssl (m : QString) :
    QString.arg (tr "<p>Cannot send message due to an SSL/TLS error</p>\n%1") m
      = "<p>Cannot send message due to an SSL/TLS error</p>\n" ++ m := by
  simp [QString.arg, tr, replaceFrom]
  rfl

theorem failed_with_ne_unknown (e : QString) :
    "Sending of the message failed with the following error: " ++ e ≠ unknownModeText := by
  intro h
  have := congrArg String.data h
  simp [unknownModeText, tr] at this

theorem ssl_ne_unknown (m : QString) :
    "<p>Cannot send message due to an SSL/TLS error</p>\n" ++ m ≠ unknownModeText := by
  intro h
  have := congrArg String.data h
  simp [unknownModeText, tr] at this

theorem step_no_unknown (fmt : List QSslError → QString) (s : SMTP) (c : Call)
    (hI : s.ModeSet) (hc : c.isHandleErrorWith unknownModeText = false) :
    Signal.error unknownModeText ∉ signals (s.step fmt c).2 := by
  cases c with
  | sendMail f t d =>
    simp only [SMTP.step, SMTP.sendMail]
    split
    · rw [signals_append, sendContinue_signals _ (by simp)]
      simp [signals]
    · simp [signals]
  | sendBurl f t d =>
    simp only [SMTP.step, SMTP.sendBurl]
    split
    · rw [signals_append, sendContinue_signals _ (by simp)]
      simp [signals]
    · simp [signals]
  | setPassword p =>
    simp only [SMTP.step, SMTP.setPassword]
    split
    · rename_i hw
      rw [sendContinue_signals _ (by simpa using hI hw)]
      simp
    · simp [signals]
  | cancel =>
    simp only [SMTP.step, SMTP.cancel]
    split
    · simp [signals, tr, unknownModeText]
    · simp [signals]
  | handleDone ok e =>
    simp only [SMTP.step, SMTP.handleDone]
    split
    · simp [signals]
    · split
      · simp [signals]
      · split
        · simp [signals, tr, unknownModeText]
        · simp only [signals, arg_failed_with, List.mem_singleton, Signal.error.injEq]
          exact fun h => failed_with_ne_unknown e h.symm
  | handleError err msg =>
    simp only [Call.isHandleErrorWith, beq_eq_false_iff_ne, ne_eq] at hc
    simp only [SMTP.step, SMTP.handleError, signals, List.mem_singleton, Signal.error.injEq]
    exact fun h => hc h.symm
  | handleSslErrors errors =>
    simp only [SMTP.step, SMTP.handleSslErrors, signals, arg_ssl, List.mem_singleton,
      Signal.error.injEq]
    exact fun h => ssl_ne_unknown _ h.symm
  | connected => simp [SMTP.step, SMTP.onConnected, signals]
  | logReceived d => simp [SMTP.step, SMTP.onLogReceived, signals]
  | logSent d => simp [SMTP.step, SMTP.onLogSent, signals]

theorem run_no_unknown (fmt : List QSslError → QString) (trace : List Call) :
    ∀ s : SMTP, s.ModeSet → (∀ c ∈ trace, c.isHandleErrorWith unknownModeText = false) →
      Signal.error unknownModeText ∉ signals (SMTP.run fmt s trace).2 := by
  induction trace with
  | nil => intro s _ _; simp [SMTP.run, signals]
  | cons c cs ih =>
    intro s hI h
    simp only [SMTP.run, signals_append, List.mem_append, not_or]
    exact ⟨step_no_unknown fmt s c hI (h c (List.mem_cons_self _ _)),
      ih _ (step_modeSet fmt s c hI) (fun x hx => h x (List.mem_cons_of_mem _ hx))⟩

theorem step_count_unknown (fmt : List QSslError → QString) (s : SMTP) (c : Call)
    (hI : s.ModeSet) :
    (signals (s.step fmt c).2).count (Signal.error unknownModeText)
      = if c.isHandleErrorWith unknownModeText then 1 else 0 := by
  cases hc : c.isHandleErrorWith unknownModeText
  · simp only [Bool.false_eq_true, if_false]
    exact List.count_eq_zero.2 (step_no_unknown fmt s c hI hc)
  · cases c with
    | handleError err msg =>
      have : msg = unknownModeText := by simpa [Call.isHandleErrorWith] using hc
      subst this
      simp [SMTP.step, SMTP.handleError, signals]
    | _ => simp [Call.isHandleErrorWith] at hc

theorem run_count_unknown (fmt : List QSslError → QString) (trace : List Call) :
    ∀ s : SMTP, s.ModeSet →
      (signals (SMTP.run fmt s trace).2).count (Signal.error unknownModeText)
        = handleErrorsWith unknownModeText trace := by
  induction trace with
  | nil => intro s _; simp [SMTP.run, signals, handleErrorsWith]
  | cons c cs ih =>
    intro s hI
    have h1 := step_count_unknown fmt s c hI
    have h2 := ih _ (step_modeSet fmt s c hI)
    simp only [SMTP.run, signals_append, List.count_append, h1, h2, handleErrorsWith,
      List.filter_cons]
    split
    · simp; omega
    · simp

/-- The calls that run the continuation leave the latch and report nothing terminal when
the mode is set. -/
theorem continuation_calls_silent (s : SMTP) (hI : s.ModeSet) (f : QByteArray)
    (t : List QByteArray) (d : QByteArray) (p : QString) :
    (terminals (s.sendMail f t d).2 = [] ∧ (s.sendMail f t d).1.failed = s.failed) ∧
    (terminals (s.sendBurl f t d).2 = [] ∧ (s.sendBurl f t d).1.failed = s.failed) ∧
    (terminals (s.setPassword p).2 = [] ∧ (s.setPassword p).1.failed = s.failed) := by
  refine ⟨?_, ?_, ?_⟩
  · simp only [SMTP.sendMail]
    split
    · refine ⟨?_, ?_⟩
      · rw [terminals_append, sendContinue_terminals _ (by simp)]
        simp [terminals, signals, Signal.isTerminal]
      · rw [sendContinue_failed _ (by simp)]
    · exact ⟨by simp [terminals, signals, Signal.isTerminal], rfl⟩
  · simp only [SMTP.sendBurl]
    split
    · refine ⟨?_, ?_⟩
      · rw [terminals_append, sendContinue_terminals _ (by simp)]
        simp [terminals, signals, Signal.isTerminal]
      · rw [sendContinue_failed _ (by simp)]
    · exact ⟨by simp [terminals, signals, Signal.isTerminal], rfl⟩
  · simp only [SMTP.setPassword]
    split
    · rename_i hw
      exact ⟨sendContinue_terminals _ (by simpa using hI hw),
        sendContinue_failed _ (by simpa using hI hw)⟩
    · exact ⟨rfl, rfl⟩

/-- C15: in every state that a finite sequence of calls and callbacks reaches from a
freshly constructed controller, the mode is `MODE_SMTP_DATA` or `MODE_SMTP_BURL` whenever
the controller waits for the password, so the continuation only ever runs in one of these
two modes; accordingly none of `sendMail`, `sendBurl` and `setPassword`, the calls that
run the continuation, reports an error there, as the default branch of the switch would;
and over the whole sequence the signal `error("Unknown SMTP mode")` occurs exactly as
often as the client itself hands that text to `handleError`: the default branch adds
none. -/
theorem C15_unknown_mode (fmt : List QSslError → QString) (host : QString) (port : Nat)
    (encryptedConnect TLS auth : Bool) (user : QString) (trace : List Call)
    (from_ : QByteArray) (to_ : List QByteArray) (data : QByteArray) (p : QString) :
    ((SMTP.run fmt (SMTP.new host port encryptedConnect TLS auth user) trace).1.isWaitingForPassword
        = true →
      (SMTP.run fmt (SMTP.new host port encryptedConnect TLS auth user) trace).1.sendingMode
          = SendingMode.MODE_SMTP_DATA ∨
        (SMTP.run fmt (SMTP.new host port encryptedConnect TLS auth user) trace).1.sendingMode
          = SendingMode.MODE_SMTP_BURL) ∧
    terminals ((SMTP.run fmt (SMTP.new host port encryptedConnect TLS auth user) trace).1.sendMail
      from_ to_ data).2 = [] ∧
    terminals ((SMTP.run fmt (SMTP.new host port encryptedConnect TLS auth user) trace).1.sendBurl
      from_ to_ data).2 = [] ∧
    terminals ((SMTP.run fmt (SMTP.new host port encryptedConnect TLS auth user) trace).1.setPassword
      p).2 = [] ∧
    (signals (SMTP.run fmt (SMTP.new host port encryptedConnect TLS auth user) trace).2).count
        (Signal.error "Unknown SMTP mode")
      = handleErrorsWith "Unknown SMTP mode" trace := by
  have h0 := new_modeSet host port encryptedConnect TLS auth user
  have hI := run_modeSet fmt trace _ h0
  have hs := continuation_calls_silent _ hI from_ to_ data p
  refine ⟨fun hw => ?_, hs.1.1, hs.2.1.1, hs.2.2.1, run_count_unknown fmt trace _ h0⟩
  have := hI hw
  cases hm : (SMTP.run fmt (SMTP.new host port encryptedConnect TLS auth user) trace).1.sendingMode
  · exact absurd hm this
  · exact Or.inl rfl
  · exact Or.inr rfl

/-- C15 at a controller with auth required that waits for the password after a
`setPassword` and a `sendMail`: its mode is a valid one. -/
theorem C15_unknown_mode_witness :
    (SMTP.run fmtCount (SMTP.new "smtp.example.org" 587 false true true "user")
        [Call.setPassword "", Call.sendMail (bytes "a@b") [bytes "c@d"] (bytes "Hi"),
          Call.cancel]).1.sendingMode = SendingMode.MODE_SMTP_DATA ∨
      (SMTP.run fmtCount (SMTP.new "smtp.example.org" 587 false true true "user")
        [Call.setPassword "", Call.sendMail (bytes "a@b") [bytes "c@d"] (bytes "Hi"),
          Call.cancel]).1.sendingMode = SendingMode.MODE_SMTP_BURL :=
  (C15_unknown_mode fmtCount "smtp.example.org" 587 false true true "user"
    [Call.setPassword "", Call.sendMail (bytes "a@b") [bytes "c@d"] (bytes "Hi"), Call.cancel]
    (bytes "a@b") [bytes "c@d"] (bytes "Hi") "secret").1 (by decide)

/-! ## C16: after the continuation has run -/

/-- A step that is no send call, on an object that does not wait: it goes on not
waiting, requests no password and connects nowhere. -/
theorem step_idle_quiet (fmt : List QSslError → QString) (s : SMTP) (c : Call)
    (hw : s.isWaitingForPassword = false) (hc : c.isSend = false) :
    passwordRequests (s.step fmt c).2 = [] ∧ connects (s.step fmt c).2 = [] := by
  cases c with
  | sendMail f t d => simp [Call.isSend] at hc
  | sendBurl f t d => simp [Call.isSend] at hc
  | setPassword p =>
    simp [SMTP.step, SMTP.setPassword, hw, passwordRequests, connects, signals, ops]
  | cancel =>
    simp only [SMTP.step, SMTP.cancel]
    split <;> simp [passwordRequests, connects, signals, ops, SmtpOp.isConnect,
      Signal.isPasswordRequested]
  | handleDone ok e =>
    simp only [SMTP.step, SMTP.handleDone]
    split
    · simp [passwordRequests, connects, signals, ops]
    · split
      · simp [passwordRequests, connects, signals, ops, Signal.isPasswordRequested]
      · split <;> simp [passwordRequests, connects, signals, ops, Signal.isPasswordRequested]
  | handleError err msg =>
    simp [SMTP.step, SMTP.handleError, passwordRequests, connects, signals, ops,
      Signal.isPasswordRequested]
  | handleSslErrors errors =>
    simp [SMTP.step, SMTP.handleSslErrors, passwordRequests, connects, signals, ops,
      Signal.isPasswordRequested]
  | connected =>
    simp [SMTP.step, SMTP.onConnected, passwordRequests, connects, signals, ops,
      Signal.isPasswordRequested]
  | logReceived d =>
    simp [SMTP.step, SMTP.onLogReceived, passwordRequests, connects, signals, ops,
      Signal.isPasswordRequested]
  | logSent d =>
    simp [SMTP.step, SMTP.onLogSent, passwordRequests, connects, signals, ops,
      Signal.isPasswordRequested]

theorem run_idle_quiet (fmt : List QSslError → QString) (trace : List Call) :
    ∀ s : SMTP, s.isWaitingForPassword = false → (∀ c ∈ trace, c.isSend = false) →
      passwordRequests (SMTP.run fmt s trace).2 = [] ∧ connects (SMTP.run fmt s trace).2 = [] := by
  induction trace with
  | nil => intro s _ _; exact ⟨rfl, rfl⟩
  | cons c cs ih =>
    intro s hw h
    have hc := h c (List.mem_cons_self _ _)
    have h1 := step_idle fmt s c hw hc
    have h2 := step_idle_quiet fmt s c hw hc
    have h3 := ih _ h1.1 (fun x hx => h x (List.mem_cons_of_mem _ hx))
    simp [SMTP.run, passwordRequests_append, connects_append, h2.1, h2.2, h3.1, h3.2]

/-- C16, refuted as stated: a second `sendMail` on a controller without auth connects a
second time; and on a controller with auth, after the continuation has run with an empty
password, a second `sendMail` makes the controller wait again and request the password
again. -/
theorem C16_counterexample :
    connects (SMTP.run fmtCount (SMTP.new "smtp.example.org" 25 false false false "")
        [Call.sendMail (bytes "a@b") [bytes "c@d"] (bytes "Hi"),
          Call.sendMail (bytes "a@b") [bytes "c@d"] (bytes "Hi")]).2
      = [SmtpOp.connectToHost "smtp.example.org" 25, SmtpOp.connectToHost "smtp.example.org" 25] ∧
    (SMTP.run fmtCount (SMTP.new "smtp.example.org" 25 false false true "user")
        [Call.sendMail (bytes "a@b") [bytes "c@d"] (bytes "Hi"), Call.setPassword "",
          Call.sendMail (bytes "a@b") [bytes "c@d"] (bytes "Hi")]).1.isWaitingForPassword = true ∧
    passwordRequests (SMTP.run fmtCount (SMTP.new "smtp.example.org" 25 false false true "user")
        [Call.sendMail (bytes "a@b") [bytes "c@d"] (bytes "Hi"), Call.setPassword "",
          Call.sendMail (bytes "a@b") [bytes "c@d"] (bytes "Hi")]).2
      = [Signal.passwordRequested "user" "smtp.example.org",
          Signal.passwordRequested "user" "smtp.example.org"] := by
  decide

/-- C16, amended: once `sendContinueGotPassword` has run, in every following sequence of
calls and callbacks that holds no send call, `isWaitingForPassword` is false after every
part of the sequence, `passwordRequested` is never emitted and no connect is invoked. -/
theorem C16_monotone (fmt : List QSslError → QString) (s : SMTP) (pre post : List Call)
    (h : ∀ c ∈ pre ++ post, c.isSend = false) :
    s.sendContinueGotPassword.1.isWaitingForPassword = false ∧
    (SMTP.run fmt s.sendContinueGotPassword.1 pre).1.isWaitingForPassword = false ∧
    passwordRequests (SMTP.run fmt s.sendContinueGotPassword.1 (pre ++ post)).2 = [] ∧
    connects (SMTP.run fmt s.sendContinueGotPassword.1 (pre ++ post)).2 = [] := by
  have hw := sendContinue_waiting s
  have hpre : ∀ c ∈ pre, c.isSend = false := fun c hc => h c (List.mem_append_left _ hc)
  have hq := run_idle_quiet fmt (pre ++ post) _ hw h
  exact ⟨hw, (run_idle fmt pre _ hw hpre).1, hq.1, hq.2⟩

/-- C16, amended, at a controller whose `sendMail` ran the continuation at once,
followed by two passwords, a failure notification and a cancellation. -/
theorem C16_monotone_witness :
    (SMTP.run fmtCount ((SMTP.new "smtp.example.org" 25 false false false "").sendMail
        (bytes "a@b") [bytes "c@d"] (bytes "Hi")).1.sendContinueGotPassword.1
      [Call.setPassword "x"]).1.isWaitingForPassword = false ∧
    connects (SMTP.run fmtCount ((SMTP.new "smtp.example.org" 25 false false false "").sendMail
        (bytes "a@b") [bytes "c@d"] (bytes "Hi")).1.sendContinueGotPassword.1
      ([Call.setPassword "x"] ++ [Call.handleDone false "", Call.cancel,
        Call.setPassword "y"])).2 = [] :=
  ⟨(C16_monotone fmtCount ((SMTP.new "smtp.example.org" 25 false false false "").sendMail
      (bytes "a@b") [bytes "c@d"] (bytes "Hi")).1 [Call.setPassword "x"]
      [Call.handleDone false "", Call.cancel, Call.setPassword "y"] (by decide)).2.1,
    (C16_monotone fmtCount ((SMTP.new "smtp.example.org" 25 false false false "").sendMail
      (bytes "a@b") [bytes "c@d"] (bytes "Hi")).1 [Call.setPassword "x"]
      [Call.handleDone false "", Call.cancel, Call.setPassword "y"] (by decide)).2.2.2⟩

/-! ## C17: the SSL-error callback -/

/-- The failure branch of `handleDone` in a state where the latch is open. -/
theorem handleDone_false_open (s : SMTP) (e : QString) (h : s.failed = false) :
    s.handleDone false e =
      ({ s with failed := true },
        [Effect.emit (Signal.error
          (if e = "" then "Sending of the message failed."
            else "Sending of the message failed with the following error: " ++ e))]) := by
  by_cases he : e = ""
  · subst he
    simp [SMTP.handleDone, h, tr, QString.isEmpty]
  · have : QString.isEmpty e = false := by
      cases hq : QString.isEmpty e
      · rfl
      · exact absurd ((isEmpty_iff e).1 hq) he
    simp [SMTP.handleDone, h, this, he, arg_failed_with]

/-- C17: in every state and for every list of SSL errors, `handleSslErrors` emits exactly
one error, whose text is "<p>Cannot send message due to an SSL/TLS error</p>", a line
feed and the formatted report of the whole list, and leaves every member, `failed`
included, as it was; so a `handleDone` that follows it in a state where `failed` was not
set is processed as usual: `sent` for success, the failure report and the latch for
failure. -/
theorem C17_handleSslErrors (fmt : List QSslError → QString) (s : SMTP)
    (errors : List QSslError) (e : QString) :
    s.handleSslErrors fmt errors
      = (s, [Effect.emit (Signal.error
          ("<p>Cannot send message due to an SSL/TLS error</p>\n" ++ fmt errors))]) ∧
    (s.failed = false →
      (s.handleSslErrors fmt errors).1.handleDone true e = (s, [Effect.emit Signal.sent]) ∧
      (s.handleSslErrors fmt errors).1.handleDone false e
        = ({ s with failed := true },
          [Effect.emit (Signal.error
            (if e = "" then "Sending of the message failed."
              else "Sending of the message failed with the following error: " ++ e))])) := by
  refine ⟨by simp [SMTP.handleSslErrors, arg_ssl], fun h => ⟨?_, ?_⟩⟩
  · simp [SMTP.handleSslErrors, SMTP.handleDone, h]
  · exact handleDone_false_open s e h

/-- C17 at a fresh controller and a list of two SSL errors: the completion that follows
is reported. -/
theorem C17_handleSslErrors_witness :
    ((SMTP.new "smtp.example.org" 465 true false false "").handleSslErrors fmtCount
        [QSslError.mk 10 [], QSslError.mk 22 []]).1.handleDone true ""
      = (SMTP.new "smtp.example.org" 465 true false false "", [Effect.emit Signal.sent]) :=
  ((C17_handleSslErrors fmtCount (SMTP.new "smtp.example.org" 465 true false false "")
    [QSslError.mk 10 [], QSslError.mk 22 []] "").2 rfl).1

/-! ## C18: dot-stuffing loses nothing -/

end MSA
